import Mathlib

/-!
Verification development for the tolerant JSON repair engine
(`JSONRepair` and its helper parsers).  The engine is embedded shallowly:
the input is a list of code points (Go `[]rune`), the shared parser state
is a cursor plus an output accumulator, and every Go function is
translated to a Lean function of the same name.  Mutually recursive
parsers are indexed by a fuel parameter; `none` marks fuel exhaustion
(which never occurs at the fuel budgets used in the theorems below).
Go standard-library calls (`strings.*`, `strconv.ParseFloat`,
`filepath.Ext`, compiled regular expressions) are modelled by explicit
executable functions named after the corresponding pattern or helper.
Output indices are modelled as code-point indices; the inputs considered
in the theorems are ASCII, where Go's byte indices coincide.
-/

namespace JsonRepair

/-- Input text: a sequence of code points (Go `[]rune`). -/
abbrev Text := List Char

/-- Shared parser state: cursor `i` and output accumulator `out`
(Go threads these by pointer through every parser). -/
structure St where
  i : Nat
  out : Text
deriving DecidableEq, Repr

/-- Closed error-kind taxonomy (the predefined error variables of the source). -/
inductive ErrKind where
  | unexpectedEnd
  | objectKeyExpected
  | colonExpected
  | invalidCharacter
  | unexpectedCharacter
  | invalidUnicode
deriving DecidableEq, Repr

/-- Structured repair error: message, code-point position, underlying kind. -/
structure RepairError where
  message : String
  position : Nat
  kind : ErrKind
deriving DecidableEq, Repr

/-- Constructor `newUnexpectedEndError` of the source. -/
def newUnexpectedEndError (position : Nat) : RepairError :=
  ⟨"Unexpected end of json string", position, .unexpectedEnd⟩

/-- Constructor `newObjectKeyExpectedError` of the source. -/
def newObjectKeyExpectedError (position : Nat) : RepairError :=
  ⟨"Object key expected", position, .objectKeyExpected⟩

/-- Constructor `newColonExpectedError` of the source. -/
def newColonExpectedError (position : Nat) : RepairError :=
  ⟨"Colon expected", position, .colonExpected⟩

/-! ## Character classification (const.go / utils.go) -/

/-- Code point of a character, matching Go rune comparisons. -/
def code (c : Char) : Nat := c.toNat

/-- Go `isHex`. -/
def isHex (c : Char) : Bool :=
  (0x30 ≤ code c && code c ≤ 0x39) ||
  (0x41 ≤ code c && code c ≤ 0x46) ||
  (0x61 ≤ code c && code c ≤ 0x66)

/-- Go `isDigit`. -/
def isDigit (c : Char) : Bool := 0x30 ≤ code c && code c ≤ 0x39

/-- Go `isLetter`. -/
def isLetter (c : Char) : Bool :=
  (0x61 ≤ code c && code c ≤ 0x7a) || (0x41 ≤ code c && code c ≤ 0x5a)

/-- Go `isDelimiter`. -/
def isDelimiter (c : Char) : Bool :=
  c = ',' || c = ':' || c = '[' || c = ']' || c = '/' ||
  c = '{' || c = '}' || c = '(' || c = ')' || c = '\n'

/-- Go `isControlCharacter`. -/
def isControlCharacter (c : Char) : Bool := code c ≤ 0x1f

/-- Go `isSpecialWhitespace` (special Unicode whitespace code points). -/
def isSpecialWhitespace (c : Char) : Bool :=
  code c = 0xa0 ||
  (0x2000 ≤ code c && code c ≤ 0x200a) ||
  code c = 0x202f || code c = 0x205f || code c = 0x3000 || code c = 0x1680

/-- Go `isWhitespace`. -/
def isWhitespace (c : Char) : Bool :=
  c = ' ' || c = '\n' || c = '\t' || c = '\r' || isSpecialWhitespace c

/-- Go `isWhitespaceExceptNewline`. -/
def isWhitespaceExceptNewline (c : Char) : Bool :=
  c = ' ' || c = '\t' || c = '\r'

/-- Go `isDoubleQuote`. -/
def isDoubleQuote (c : Char) : Bool := code c = 0x22

/-- Go `isDoubleQuoteLike` (straight or curly double quote). -/
def isDoubleQuoteLike (c : Char) : Bool :=
  code c = 0x22 || code c = 0x201c || code c = 0x201d

/-- Go `isSingleQuote`. -/
def isSingleQuote (c : Char) : Bool := code c = 0x27

/-- Go `isSingleQuoteLike` (straight or curly single quote, backtick, acute accent). -/
def isSingleQuoteLike (c : Char) : Bool :=
  code c = 0x27 || code c = 0x2018 || code c = 0x2019 ||
  code c = 0x60 || code c = 0xb4

/-- Go `isQuote`. -/
def isQuote (c : Char) : Bool := isDoubleQuoteLike c || isSingleQuoteLike c

/-- Go `isFunctionNameCharStart`. -/
def isFunctionNameCharStart (c : Char) : Bool :=
  (0x61 ≤ code c && code c ≤ 0x7a) || (0x41 ≤ code c && code c ≤ 0x5a) ||
  c = '_' || c = '$'

/-- Go `isFunctionNameChar`. -/
def isFunctionNameChar (c : Char) : Bool :=
  isFunctionNameCharStart c || isDigit c

/-- Go `isUnquotedStringDelimiter`. -/
def isUnquotedStringDelimiter (c : Char) : Bool :=
  c = ',' || c = '[' || c = ']' || c = '{' || c = '}' || c = '+' ||
  c = ' ' || c = '\t' || c = '\n' || c = '\r'

/-- Go `isStartOfValue`: the regex `^[\x7b[\w-]$` (an opening brace or bracket,
a word character, or a minus) or a quote. -/
def isStartOfValue (c : Char) : Bool :=
  c = '{' || c = '[' || isDigit c || isLetter c || c = '_' || c = '-' ||
  isQuote c

/-- Go `controlCharacters` map: JSON escape replacement of a control character. -/
def controlCharacters (c : Char) : Option Text :=
  if code c = 0x08 then some ['\\', 'b']
  else if code c = 0x0c then some ['\\', 'f']
  else if c = '\n' then some ['\\', 'n']
  else if c = '\r' then some ['\\', 'r']
  else if c = '\t' then some ['\\', 't']
  else none

/-- Go `escapeCharacters` map membership: the characters that may follow a
backslash in a JSON string escape. -/
def isEscapeCharacter (c : Char) : Bool :=
  c = '"' || c = '\\' || c = '/' || c = 'b' || c = 'f' || c = 'n' ||
  c = 'r' || c = 't' || c = 'u'

/-! ## Generic string helpers (Go `strings` package, modelled on rune lists) -/

/-- Go `strings.HasPrefix` on rune lists. -/
def goStartsWith (s pre : Text) : Bool := s.take pre.length = pre

/-- Go `strings.HasSuffix` on rune lists. -/
def goEndsWith (s suf : Text) : Bool := s.drop (s.length - suf.length) = suf && s.length ≥ suf.length

/-- Go `strings.Contains` on rune lists. -/
def goContains : Text → Text → Bool
  | _, [] => true
  | [], _ => false
  | c :: rest, needle =>
      goStartsWith (c :: rest) needle || goContains rest needle

/-- Go `strings.Index` on rune lists (first index of a substring, or none). -/
def goIndexOf : Text → Text → Option Nat
  | _, [] => some 0
  | [], _ => none
  | c :: rest, needle =>
      if goStartsWith (c :: rest) needle then some 0
      else (goIndexOf rest needle).map (· + 1)

/-- Go `strings.LastIndex` for a single-character needle: last index of `c`, or none. -/
def goLastIndexOfChar (s : Text) (c : Char) : Option Nat :=
  (goIndexOf s.reverse [c]).map (fun j => s.length - 1 - j)

/-- Go `strings.Count` of a single character. -/
def goCountChar (s : Text) (c : Char) : Nat := s.count c

/-- Go `strings.ToLower` (ASCII case folding; the classifier patterns are ASCII). -/
def goToLower (s : Text) : Text := s.map Char.toLower

/-- Whitespace set of Go `strings.TrimSpace` / `unicode.IsSpace`
(ASCII whitespace plus the special Unicode spaces that can occur here). -/
def isGoSpace (c : Char) : Bool :=
  c = ' ' || c = '\t' || c = '\n' || code c = 0x0b || code c = 0x0c ||
  c = '\r' || code c = 0x85 || isSpecialWhitespace c

/-- Go `strings.TrimSpace` on rune lists. -/
def goTrimSpace (s : Text) : Text :=
  ((s.dropWhile isGoSpace).reverse.dropWhile isGoSpace).reverse

/-- Go `strings.Trim(s, cutset)` for a single-character cutset. -/
def goTrimChar (s : Text) (c : Char) : Text :=
  ((s.dropWhile (· = c)).reverse.dropWhile (· = c)).reverse

/-- Go `strings.TrimRight(s, cutset)`: drop trailing characters in the cutset. -/
def goTrimRightSet (s : Text) (cutset : List Char) : Text :=
  (s.reverse.dropWhile (cutset.contains ·)).reverse

/-- Go `strings.TrimPrefix(s, "+")` as used in `parseNumber`. -/
def goTrimPlusSign (s : Text) : Text :=
  match s with
  | '+' :: rest => rest
  | _ => s

/-- Go `strings.Split` by a single-character separator. -/
def goSplitChar (s : Text) (sep : Char) : List Text :=
  List.splitOn sep s

/-- Go `stripLastOccurrence` (utils.go): remove the last occurrence of a
one-character needle, optionally stripping everything after it. -/
def stripLastOccurrence (s : Text) (c : Char) (stripRemainingText : Bool) : Text :=
  match goLastIndexOfChar s c with
  | some idx =>
      if stripRemainingText then s.take idx
      else s.take idx ++ s.drop (idx + 1)
  | none => s

/-- Go `insertBeforeLastWhitespace` (utils.go). -/
def insertBeforeLastWhitespace (s : Text) (textToInsert : Text) : Text :=
  if s = [] || !isWhitespace (s.getLastD ' ') then s ++ textToInsert
  else
    let trailing := s.reverse.takeWhile isWhitespace
    s.take (s.length - trailing.length) ++ textToInsert ++ trailing.reverse

/-- Go `removeAtIndex` (utils.go). -/
def removeAtIndex (s : Text) (start count : Nat) : Text :=
  s.take start ++ s.drop (start + count)

/-! ## Regular-expression models (the precompiled patterns of the source) -/

/-- One unit of the whitespace-trimming patterns: a space, or a backslash
followed by one of `n t r f b` (regex fragment `(?:\\[ntrfb]| )`). -/
def isWsUnitTail : Text → Bool
  | [] => true
  | ' ' :: rest => isWsUnitTail rest
  | '\\' :: c :: rest =>
      if c = 'n' || c = 't' || c = 'r' || c = 'f' || c = 'b' then isWsUnitTail rest
      else false
  | _ => false

/-- Remove the suffix matched by the regex `(?:\\[ntrfb]| )+$`
(`trailingWhitespaceRe.ReplaceAllString(s, "")`). -/
def goTrimTrailingWsUnits : Text → Text
  | [] => []
  | c :: rest =>
      if isWsUnitTail (c :: rest) then []
      else c :: goTrimTrailingWsUnits rest

/-- Remove the prefix matched by the regex fragment `^(?:\\[ntrfb]| )+`. -/
def goTrimLeadingWsUnits : Text → Text
  | ' ' :: rest => goTrimLeadingWsUnits rest
  | '\\' :: c :: rest =>
      if c = 'n' || c = 't' || c = 'r' || c = 'f' || c = 'b' then
        goTrimLeadingWsUnits rest
      else '\\' :: c :: rest
  | s => s

/-- Model of `stringTrimRe.ReplaceAllString(s, "")` for the pattern
`^(?:\\[ntrfb]| )+|(?:\\[ntrfb]| )+$`: strip a leading and a trailing
run of whitespace units. -/
def stringTrimReplace (s : Text) : Text :=
  goTrimTrailingWsUnits (goTrimLeadingWsUnits s)

/-- Model of the inline regex `^0\d` check of `parseNumber`. -/
def hasInvalidLeadingZero : Text → Bool
  | '0' :: d :: _ => isDigit d
  | _ => false

/-! ## Model of `strconv.ParseFloat` acceptance (used by `isNumericString`) -/

/-- Strip one leading `+` or `-` sign. -/
def stripSign : Text → Text
  | c :: rest => if c = '+' || c = '-' then rest else c :: rest
  | [] => []

/-- Special values accepted by `strconv.ParseFloat`: an optionally signed
`inf`/`infinity`, or an unsigned `nan`, case-insensitively. -/
def goParseFloatSpecial (s : Text) : Bool :=
  match s with
  | [] => false
  | c :: rest =>
      if c = '+' || c = '-' then
        goToLower rest = "inf".toList || goToLower rest = "infinity".toList
      else
        goToLower s = "inf".toList || goToLower s = "infinity".toList ||
        goToLower s = "nan".toList

/-- Decimal float syntax after sign and underscore removal:
digits with at most one dot and at least one digit, then an optional
`e`/`E` exponent with an optional sign and at least one digit. -/
def goDecFloatCore (t : Text) : Bool :=
  let mant := t.takeWhile (fun c => isDigit c || c = '.')
  let rest := t.drop mant.length
  goCountChar mant '.' ≤ 1 && mant.any isDigit &&
  (match rest with
   | [] => true
   | e :: rest2 =>
       (e = 'e' || e = 'E') &&
       (let r3 := stripSign rest2
        !r3.isEmpty && r3.all isDigit))

/-- Hexadecimal float syntax after sign and underscore removal:
`0x`/`0X`, hex digits with at most one dot and at least one hex digit,
then a mandatory `p`/`P` exponent with an optional sign and at least
one decimal digit. -/
def goHexFloatCore (t : Text) : Bool :=
  match t with
  | '0' :: x :: rest =>
      (x = 'x' || x = 'X') &&
      (let mant := rest.takeWhile (fun c => isHex c || c = '.')
       let rest2 := rest.drop mant.length
       goCountChar mant '.' ≤ 1 && mant.any isHex &&
       (match rest2 with
        | p :: rest3 =>
            (p = 'p' || p = 'P') &&
            (let r4 := stripSign rest3
             !r4.isEmpty && r4.all isDigit)
        | [] => false))
  | _ => false

/-- Each underscore must sit between two digits of the given digit class
(Go `underscoreOK`, restricted to the positions that occur after the sign).
The fuel is the length of the scanned text. -/
def underscoresBetweenDigitsAux (dig : Char → Bool) : Nat → Text → Bool
  | _, [] => true
  | 0, _ => true
  | fuel + 1, a :: '_' :: b :: rest =>
      dig a && dig b && underscoresBetweenDigitsAux dig fuel ('_' :: b :: rest)
  | _ + 1, '_' :: _ => false
  | fuel + 1, _ :: rest => underscoresBetweenDigitsAux dig fuel rest

/-- Entry point of the underscore-position check. -/
def underscoresBetweenDigits (dig : Char → Bool) (s : Text) : Bool :=
  underscoresBetweenDigitsAux dig s.length s

/-- Acceptance of `strconv.ParseFloat(s, 64)` (the full string must parse). -/
def goParseFloatAccepts (s : Text) : Bool :=
  goParseFloatSpecial s ||
  (let t := stripSign s
   let isHexForm := goStartsWith t "0x".toList || goStartsWith t "0X".toList
   let digClass := if isHexForm then isHex else isDigit
   underscoresBetweenDigits digClass t &&
   (let t2 := t.filter (fun c => c ≠ '_')
    if isHexForm then goHexFloatCore t2 else goDecFloatCore t2))

/-- Go `isNumericString`: nonempty and accepted by `strconv.ParseFloat`. -/
def isNumericString (s : Text) : Bool :=
  !s.isEmpty && goParseFloatAccepts s

/-! ## Heuristic file-path classifiers (utils.go) -/

/-- Pattern list `windowsPathPatterns` of the source. -/
def windowsPathPatterns : List String :=
  ["program files", "system32", "windows\\", "programdata",
   "users\\", "documents", "desktop", "downloads", "music", "pictures",
   "videos", "appdata", "roaming", "public",
   "temp\\", "fonts", "startup", "sendto", "recent", "nethood", "cookies",
   "cache", "history", "favorites", "templates"]

/-- Pattern list `unixPathPatterns` of the source. -/
def unixPathPatterns : List String :=
  ["/bin/", "/etc/", "/var/", "/usr/", "/opt/", "/home/", "/tmp/", "/lib/",
   "/lib64/",
   "/proc/", "/dev/", "/sys/", "/run/", "/srv/", "/mnt/", "/media/",
   "/boot/", "/snap/",
   "/usr/share/", "/usr/local/", "/usr/src/", "/var/log/", "/var/lib/",
   "/var/cache/", "/var/spool/",
   "/Applications/", "/Library/", "/System/", "/Users/"]

/-- Pattern list `commonFileExtensions` of the source. -/
def commonFileExtensions : List String :=
  [".config", ".cfg", ".ini", ".conf", ".properties", ".toml",
   ".json", ".xml", ".yml", ".yaml", ".csv", ".tsv",
   ".backup", ".bak", ".old", ".tmp", ".temp", ".swp", ".~",
   ".log", ".out", ".err", ".debug", ".trace",
   ".db", ".sqlite", ".sqlite3", ".mdb",
   ".txt", ".md", ".readme", ".doc", ".docx", ".pdf",
   ".zip", ".tar", ".gz", ".rar", ".7z", ".bz2", ".xz",
   ".js", ".ts", ".py", ".go", ".java", ".cpp", ".c", ".h", ".cs", ".php",
   ".rb", ".rs",
   ".mp3", ".mp4", ".jpg", ".jpeg", ".png", ".gif", ".bmp", ".webp", ".svg",
   ".ico",
   ".dat", ".bin", ".raw", ".dump"]

/-- Count of non-overlapping matches of `unicodeEscapeRe`
(`\\u[0-9a-fA-F]{4}`), as `FindAllString` returns.  The fuel is the length
of the scanned text. -/
def countUnicodeEscapesAux : Nat → Text → Nat
  | _, [] => 0
  | 0, _ => 0
  | fuel + 1, '\\' :: 'u' :: a :: b :: c :: d :: rest2 =>
      if isHex a && isHex b && isHex c && isHex d then
        1 + countUnicodeEscapesAux fuel rest2
      else countUnicodeEscapesAux fuel ('u' :: a :: b :: c :: d :: rest2)
  | fuel + 1, _ :: rest => countUnicodeEscapesAux fuel rest

/-- Entry point of the `unicodeEscapeRe` match counter. -/
def countUnicodeEscapes (s : Text) : Nat := countUnicodeEscapesAux s.length s

/-- Count of escape pairs in `hasExcessiveEscapeSequences`: a backslash
followed by one of `n t r b f " \`.  The fuel is the length of the text. -/
def countEscapePairsAux : Nat → Text → Nat
  | _, [] => 0
  | 0, _ => 0
  | fuel + 1, '\\' :: c :: rest =>
      (if c = 'n' || c = 't' || c = 'r' || c = 'b' || c = 'f' || c = '"' ||
          c = '\\' then 1 else 0) + countEscapePairsAux fuel (c :: rest)
  | fuel + 1, _ :: rest => countEscapePairsAux fuel rest

/-- Entry point of the escape-pair counter. -/
def countEscapePairs (s : Text) : Nat := countEscapePairsAux s.length s

/-- Go `hasExcessiveEscapeSequences` (ratios of floats modelled as exact
rational comparisons). -/
def hasExcessiveEscapeSequences (content : Text) : Bool :=
  if content.length < 3 then false
  else
    let unicodeMatches := countUnicodeEscapes content
    let firstTest :=
      unicodeMatches ≥ 2 && 10 * (unicodeMatches * 6) > 6 * content.length
    if firstTest then true
    else
      let escapeCount := countEscapePairs content
      escapeCount > 0 && 10 * (escapeCount * 2) > 3 * content.length

/-- Lowercase letters occurring after the first space, for the sentence
heuristic of `isLikelyTextBlob` (the `foundSpace` flag never resets). -/
def lowercaseAfterSpaceCount (foundSpace : Bool) : Text → Nat
  | [] => 0
  | r :: rest =>
      if r = ' ' then lowercaseAfterSpaceCount true rest
      else if foundSpace && 0x61 ≤ code r && code r ≤ 0x7a then
        1 + lowercaseAfterSpaceCount foundSpace rest
      else lowercaseAfterSpaceCount foundSpace rest

/-- Go `isLikelyTextBlob`. -/
def isLikelyTextBlob (content : Text) : Bool :=
  if content.length < 3 then false
  else if goContains content "  ".toList then true
  else if goContains content ['\n'] || goContains content ['\t'] ||
          goContains content ['\r'] then true
  else if goContains content ". ".toList || goContains content "! ".toList ||
          goContains content "? ".toList then true
  else
    let spaceCount := goCountChar content ' '
    if spaceCount > 5 then true
    else if content.length > 10 &&
        (match content with
         | c :: _ => 0x41 ≤ code c && code c ≤ 0x5a
         | [] => false) && spaceCount > 2 then
      lowercaseAfterSpaceCount false (content.drop 1) ≥ 3
    else false

/-- Go `isBase64String` (`base64Re` is `^[A-Za-z0-9+/=]{20,}$`). -/
def isBase64String (content : Text) : Bool :=
  content.length ≥ 20 &&
  content.all (fun c => isLetter c || isDigit c || c = '+' || c = '/' || c = '=')

/-- Go `hasURLEncoding` (`urlEncodingRe` is `%[0-9a-fA-F]{2}`, matched
anywhere).  The fuel is the length of the scanned text. -/
def hasURLEncodingAux : Nat → Text → Bool
  | _, [] => false
  | 0, _ => false
  | fuel + 1, '%' :: a :: b :: rest =>
      (isHex a && isHex b) || hasURLEncodingAux fuel (a :: b :: rest)
  | fuel + 1, _ :: rest => hasURLEncodingAux fuel rest

/-- Entry point of the `urlEncodingRe` match test. -/
def hasURLEncoding (s : Text) : Bool := hasURLEncodingAux s.length s

/-- Match of `containsDriveRe` (`[A-Za-z]:\\` anywhere).  The fuel is the
length of the scanned text. -/
def containsDrivePatternAux : Nat → Text → Bool
  | _, [] => false
  | 0, _ => false
  | fuel + 1, a :: b :: c :: rest =>
      (isLetter a && b = ':' && c = '\\') ||
      containsDrivePatternAux fuel (b :: c :: rest)
  | _ + 1, _ => false

/-- Entry point of the `containsDriveRe` match test. -/
def containsDrivePattern (s : Text) : Bool := containsDrivePatternAux s.length s

/-- Go `isWindowsAbsolutePath` (`driveLetterRe` is `^[A-Za-z]:\\`). -/
def isWindowsAbsolutePath (content : Text) : Bool :=
  (match content with
   | a :: b :: c :: _ => isLetter a && b = ':' && c = '\\'
   | _ => false) || containsDrivePattern content

/-- Go `isUNCPath`. -/
def isUNCPath (content : Text) : Bool :=
  if !goStartsWith content "\\\\".toList || goStartsWith content "\\\\\\\\".toList then
    false
  else
    let parts := goSplitChar content '\\'
    parts.length ≥ 4 && (parts.getD 2 []).length > 0 && (parts.getD 3 []).length > 0

/-- Go `isUnixAbsolutePath`. -/
def isUnixAbsolutePath (content : Text) : Bool :=
  if goStartsWith content "~/".toList then true
  else if goStartsWith content ['/'] && content.length > 1 then
    let c1 := content.getD 1 ' '
    if isWhitespace c1 || c1 = ')' || c1 = ']' || c1 = '}' then false
    else if goCountChar content '/' ≥ 2 then true
    else
      let lower := goToLower content
      unixPathPatterns.any (fun p => goStartsWith lower p.toList)
  else false

/-- Go `containsPathSeparator`. -/
def containsPathSeparator (content : Text) : Bool :=
  goContains content ['/'] || goContains content ['\\']

/-- Go `countValidPathSegments`. -/
def countValidPathSegments (content : Text) (separator : Char) : Nat :=
  ((goSplitChar content separator).map goTrimSpace).countP
    (fun part => part.length > 0 && part ≠ ['.'] && part ≠ "..".toList)

/-- Go `filepath.Ext`: the suffix of the last path element beginning at its
final dot. -/
def filepathExt (s : Text) : Text :=
  let rev := s.reverse.takeWhile (fun c => c ≠ '/')
  let pre := rev.takeWhile (fun c => c ≠ '.')
  if pre.length < rev.length then (rev.take (pre.length + 1)).reverse else []

/-- Letter or digit, case-insensitively (the `(?i)[a-z0-9]` class). -/
def alnumCI (c : Char) : Bool := isDigit c || isLetter c

/-- Check `[a-z0-9]{k}(\?|$|\\|"|/)` for one length `k` after a dot. -/
def extAfterDotLen (r : Text) (k : Nat) : Bool :=
  (r.take k).length = k && (r.take k).all alnumCI &&
  (match r.drop k with
   | [] => true
   | c :: _ => c = '?' || c = '\\' || c = '"' || c = '/')

/-- Match of `fileExtensionRe` (`(?i)\.[a-z0-9]{2,5}(\?|$|\\|"|/)`, anywhere). -/
def fileExtensionReMatch : Text → Bool
  | [] => false
  | '.' :: rest =>
      extAfterDotLen rest 2 || extAfterDotLen rest 3 || extAfterDotLen rest 4 ||
      extAfterDotLen rest 5 || fileExtensionReMatch rest
  | _ :: rest => fileExtensionReMatch rest

/-- Go `hasFileExtension`. -/
def hasFileExtension (content : Text) : Bool :=
  let ext := filepathExt content
  if ext.length > 1 && ext.length ≤ 6 then true
  else fileExtensionReMatch content

/-- Windows directory names checked inside `hasValidPathStructure`. -/
def hvpsWindowsDirs : List String :=
  ["program files", "windows", "users", "temp", "system32", "documents",
   "programdata",
   "desktop", "downloads", "music", "pictures", "videos", "appdata",
   "roaming", "public",
   "inetpub", "wwwroot", "node_modules", "npm"]

/-- Unix directory names checked inside `hasValidPathStructure`. -/
def hvpsUnixDirs : List String :=
  ["/bin/", "/etc/", "/var/", "/usr/", "/opt/", "/home/", "/tmp/", "/lib/",
   "/proc/", "/dev/", "/sys/", "/run/", "/srv/", "/mnt/", "/media/", "/boot/",
   "/Applications/", "/Library/", "/System/", "/Users/"]

/-- Go `hasValidPathStructure`. -/
def hasValidPathStructure (pathStr : Text) : Bool :=
  if pathStr.length < 2 then false
  else if !containsPathSeparator pathStr then false
  else
    let separator := if goContains pathStr ['\\'] then '\\' else '/'
    let meaningfulParts := countValidPathSegments pathStr separator
    if meaningfulParts < 2 then false
    else if hasFileExtension pathStr then true
    else if meaningfulParts ≥ 3 then true
    else
      let lowerPath := goToLower pathStr
      if hvpsWindowsDirs.any (fun dir => goContains lowerPath dir.toList) then true
      else if goStartsWith pathStr ['/'] then
        hvpsUnixDirs.any (fun dir => goContains lowerPath dir.toList)
      else false

/-- Go `isURLPath`. -/
def isURLPath (content : Text) : Bool :=
  let lowerContent := goToLower content
  if goStartsWith lowerContent "http://".toList ||
     goStartsWith lowerContent "https://".toList then false
  else if goStartsWith lowerContent "file://".toList then
    let pathPart := content.drop 7
    pathPart.length > 1 && hasValidPathStructure pathPart
  else if goStartsWith lowerContent "smb://".toList then
    let pathPart := content.drop 6
    pathPart.length > 1 && hasValidPathStructure pathPart
  else if goStartsWith lowerContent "ftp://".toList then
    let pathPart := content.drop 6
    match goIndexOf pathPart ['/'] with
    | some slashIndex =>
        slashIndex > 0 && hasValidPathStructure (pathPart.drop slashIndex)
    | none => false
  else false

/-- Go `matchesWindowsPathPattern`. -/
def matchesWindowsPathPattern (lowerContent content : Text) : Bool :=
  windowsPathPatterns.any
    (fun pattern =>
      goContains lowerContent pattern.toList && containsPathSeparator content)

/-- Go `matchesUnixPathPattern`. -/
def matchesUnixPathPattern (lowerContent : Text) : Bool :=
  unixPathPatterns.any (fun pattern => goContains lowerContent pattern.toList)

/-- Go `hasCommonFileExtension`. -/
def hasCommonFileExtension (lowerContent : Text) : Bool :=
  if !containsPathSeparator lowerContent then false
  else commonFileExtensions.any (fun ext => goEndsWith lowerContent ext.toList)

/-- Go `isExcludedURL`. -/
def isExcludedURL (lowerContent content : Text) : Bool :=
  if goStartsWith lowerContent "http://".toList ||
     goStartsWith lowerContent "https://".toList then true
  else if goStartsWith lowerContent "ftp://".toList &&
      !goContains (content.drop 6) ['/'] then true
  else false

/-- Go `passesEarlyExclusionFilters`. -/
def passesEarlyExclusionFilters (content : Text) : Bool :=
  if hasExcessiveEscapeSequences content then false
  else if isLikelyTextBlob content then false
  else if isBase64String content then false
  else if hasURLEncoding content then false
  else true

/-- Go `matchesAbsolutePathFormat`. -/
def matchesAbsolutePathFormat (content : Text) : Bool :=
  isURLPath content || isWindowsAbsolutePath content ||
  isUNCPath content || isUnixAbsolutePath content

/-- Go `isLikelyFilePath`. -/
def isLikelyFilePath (content : Text) : Bool :=
  if content.length < 2 then false
  else
    let lowerContent := goToLower content
    if isExcludedURL lowerContent content then false
    else if matchesAbsolutePathFormat content then true
    else if !passesEarlyExclusionFilters content then false
    else if matchesWindowsPathPattern lowerContent content then true
    else if matchesUnixPathPattern lowerContent then true
    else if hasCommonFileExtension lowerContent then true
    else false

/-! ## Low-level scanning helpers -/

/-- Read the character at index `i` (all source accesses are guarded by
bounds checks, so the default is never observed). -/
def tget (text : Text) (i : Nat) : Char := text.getD i (Char.ofNat 0)

/-- Slice `text[a:b]` on code points. -/
def slice (text : Text) (a b : Nat) : Text := (text.drop a).take (b - a)

/-- First index `j ≥ i` whose character fails `p`, capped at the length. -/
def scanWhile (p : Char → Bool) (text : Text) (i : Nat) : Nat :=
  i + ((text.drop i).takeWhile p).length

/-- Go `strings.LastIndexAny` for a cutset, on rune lists. -/
def goLastIndexAny (s : Text) (cutset : List Char) : Option Nat :=
  (s.reverse.findIdx? (fun c => cutset.contains c)).map
    (fun j => s.length - 1 - j)

/-- Go `atEndOfBlockComment`. -/
def atEndOfBlockComment (text : Text) (i : Nat) : Bool :=
  i + 1 < text.length && tget text i = '*' && tget text (i + 1) = '/'

/-- Go `atEndOfNumber`. -/
def atEndOfNumber (text : Text) (i : Nat) : Bool :=
  i ≥ text.length || isDelimiter (tget text i) || isWhitespace (tget text i)

/-- Go `repairNumberEndingWithNumericSymbol`: emit the scanned token with a
`0` appended. -/
def repairNumberEndingWithNumericSymbol (text : Text) (start i : Nat) (out : Text) : Text :=
  out ++ slice text start i ++ ['0']

/-- Scan of the block-comment body in `parseComment`: first index at the end
marker, or the length. -/
def blockCommentScan : Nat → Text → Nat → Nat
  | 0, _, i => i
  | fuel + 1, text, i =>
      if i < text.length && !atEndOfBlockComment text i then
        blockCommentScan fuel text (i + 1)
      else i

/-- Maximal run of letters immediately preceding index `i` (the backward
protocol scans of the source). -/
def letterRunBefore (text : Text) (i : Nat) : Text :=
  ((text.take i).reverse.takeWhile isLetter).reverse

/-- Maximal run of letters immediately preceding index `i`, not reaching
before `start`. -/
def letterRunBeforeFrom (text : Text) (start i : Nat) : Text :=
  (((text.take i).drop start).reverse.takeWhile isLetter).reverse

/-- Go `parseComment` (advances the cursor only; returns whether it changed). -/
def parseComment (text : Text) (i : Nat) : Bool × Nat :=
  if i + 1 < text.length then
    if tget text i = '/' && tget text (i + 1) = '*' then
      let j := blockCommentScan (text.length + 1) text i
      (true, if j + 2 ≤ text.length then j + 2 else j)
    else if tget text i = '/' && tget text (i + 1) = '/' then
      if i > 0 && tget text (i - 1) = ':' &&
          (let protocol := letterRunBefore text (i - 1)
           protocol = "http".toList || protocol = "https".toList ||
           protocol = "ftp".toList) then
        (false, i)
      else
        (true, scanWhile (fun c => c ≠ '\n' && c ≠ '\r') text i)
    else (false, i)
  else (false, i)

/-- Go `parseWhitespace`: consume a whitespace run, normalising special
Unicode whitespace to a plain space in the output. -/
def parseWhitespace (text : Text) (skipNewline : Bool) (st : St) : Bool × St :=
  let isW := if skipNewline then isWhitespace else isWhitespaceExceptNewline
  let run := (text.drop st.i).takeWhile (fun c => isW c || isSpecialWhitespace c)
  let ws := run.map (fun c => if !isSpecialWhitespace c then c else ' ')
  if ws.length > 0 then (true, ⟨st.i + run.length, st.out ++ ws⟩)
  else (false, st)

/-- Comment-then-whitespace alternation of `parseWhitespaceAndSkipComments`.
The fuel exceeds the remaining input length. -/
def parseWSCLoop : Nat → Text → Bool → St → St
  | 0, _, _, st => st
  | fuel + 1, text, skipNewline, st =>
      let (changed1, i2) := parseComment text st.i
      if changed1 then
        let (changed2, st2) := parseWhitespace text skipNewline ⟨i2, st.out⟩
        if changed2 then parseWSCLoop fuel text skipNewline st2 else st2
      else st

/-- Go `parseWhitespaceAndSkipComments`. -/
def parseWhitespaceAndSkipComments (text : Text) (skipNewline : Bool) (st : St) :
    Bool × St :=
  let start := st.i
  let (_, st1) := parseWhitespace text skipNewline st
  let st2 := parseWSCLoop (text.length + 1) text skipNewline st1
  (st2.i > start, st2)

/-- Cursor after `parseWhitespaceAndSkipComments` into a throwaway builder
(the lookahead pattern of the source). -/
def skipWSCIdx (text : Text) (i : Nat) : Nat :=
  ((parseWhitespaceAndSkipComments text true ⟨i, []⟩).2).i

/-- Loop `for parseComment { parseWhitespaceAndSkipComments(dummy) }` used in
the colon lookaheads. -/
def skipCommentsWSCIdx : Nat → Text → Nat → Nat
  | 0, _, i => i
  | fuel + 1, text, i =>
      let (changed, i2) := parseComment text i
      if changed then skipCommentsWSCIdx fuel text (skipWSCIdx text i2) else i

/-- Loop `for parseComment(text, i) {}` of the source (comments only). -/
def commentsOnlyLoop : Nat → Text → Nat → Nat
  | 0, _, i => i
  | fuel + 1, text, i =>
      let (changed, i2) := parseComment text i
      if changed then commentsOnlyLoop fuel text i2 else i

/-- Whitespace-and-comment skip inside `lookAheadForColon`. -/
def lookAheadSkipWSC : Nat → Text → Nat → Nat
  | 0, _, j => j
  | fuel + 1, text, j =>
      if j < text.length then
        if isWhitespace (tget text j) || isSpecialWhitespace (tget text j) then
          lookAheadSkipWSC fuel text (j + 1)
        else if tget text j = '/' && j + 1 < text.length &&
            tget text (j + 1) = '/' then
          lookAheadSkipWSC fuel text
            (scanWhile (fun c => c ≠ '\n' && c ≠ '\r') text (j + 2))
        else if tget text j = '/' && j + 1 < text.length &&
            tget text (j + 1) = '*' then
          let j2 := blockCommentScan (text.length + 1) text (j + 2)
          lookAheadSkipWSC fuel text (if j2 + 1 < text.length then j2 + 2 else j2)
        else j
      else j

/-- Key scan inside `lookAheadForColon`: stops at a delimiter or quote,
returns early at an equals sign. -/
def lookAheadKeyScan : Nat → Text → Nat → Bool → Option Bool × Nat
  | 0, _, j, _ => (none, j)
  | fuel + 1, text, j, hasKey =>
      if j < text.length && !isDelimiter (tget text j) && !isQuote (tget text j) then
        if tget text j = ':' || tget text j = '=' then (some hasKey, j)
        else
          lookAheadKeyScan fuel text (j + 1)
            (hasKey || !isWhitespace (tget text j))
      else (none, j)

/-- Go `lookAheadForColon`. -/
def lookAheadForColon (text : Text) (i : Nat) : Bool :=
  let j0 := if i < text.length &&
      (tget text i = '\n' || tget text i = '\r') then i + 1 else i
  let j1 := lookAheadSkipWSC (text.length + 1) text j0
  match lookAheadKeyScan (text.length + 1) text j1 false with
  | (some hasKey, _) => hasKey
  | (none, j2) =>
      if j2 < text.length && isQuote (tget text j2) then
        let j3 := scanWhile (fun c => !isQuote c) text (j2 + 1)
        if j3 < text.length && isQuote (tget text j3) then
          let j4 := scanWhile isWhitespace text (j3 + 1)
          j4 < text.length && tget text j4 = ':'
        else false
      else false

/-- Go `parseCharacter`. -/
def parseCharacter (text : Text) (st : St) (c : Char) : Bool × St :=
  if st.i < text.length && tget text st.i = c then
    (true, ⟨st.i + 1, st.out ++ [tget text st.i]⟩)
  else (false, st)

/-- Go `skipCharacter` (advances the cursor only). -/
def skipCharacter (text : Text) (i : Nat) (c : Char) : Bool × Nat :=
  if i < text.length && tget text i = c then (true, i + 1) else (false, i)

/-- Go `skipEllipsis`. -/
def skipEllipsis (text : Text) (st : St) : Bool × St :=
  let (_, st1) := parseWhitespaceAndSkipComments text true st
  if st1.i + 2 < text.length && tget text st1.i = '.' &&
      tget text (st1.i + 1) = '.' && tget text (st1.i + 2) = '.' then
    let (_, st2) := parseWhitespaceAndSkipComments text true ⟨st1.i + 3, st1.out⟩
    let (_, i3) := skipCharacter text st2.i ','
    (true, ⟨i3, st2.out⟩)
  else (false, st1)

/-- Go `isURLStart`. -/
def isURLStart (text : Text) (i : Nat) : Bool :=
  if i = 0 || tget text i ≠ ':' then false
  else
    let protocol := letterRunBefore text i
    (protocol = "http".toList || protocol = "https".toList ||
     protocol = "ftp".toList) &&
    i + 2 < text.length && tget text (i + 1) = '/' && tget text (i + 2) = '/'

/-- Scan for the closing quote in `analyzePotentialFilePath`. -/
def analyzeScanQuoteEnd : Nat → Text → Char → Nat → Nat
  | 0, _, _, e => e
  | fuel + 1, text, quote, e =>
      if e < text.length then
        if tget text e = quote && tget text (e - 1) ≠ '\\' then e + 1
        else analyzeScanQuoteEnd fuel text quote (e + 1)
      else e

/-- Go `analyzePotentialFilePath`. -/
def analyzePotentialFilePath (text : Text) (startIndex : Nat) : Bool :=
  if startIndex ≥ text.length then false
  else
    let endIndex :=
      if isQuote (tget text startIndex) then
        analyzeScanQuoteEnd (text.length + 1) text (tget text startIndex)
          (startIndex + 1)
      else
        scanWhile (fun c => !isDelimiter c && !isWhitespace c) text startIndex
    let content := slice text startIndex endIndex
    let content2 :=
      if content.length ≥ 2 && isQuote (content.getD 0 ' ') &&
          isQuote (content.getLastD ' ') then
        (content.drop 1).take (content.length - 2)
      else content
    isLikelyFilePath content2

/-! ## Scalar parsers: number, keywords, regex -/

/-- Shared ending of `parseNumber`: check the end-of-number condition and
emit, quoting tokens with an invalid leading zero and stripping a `+` sign. -/
def parseNumberEnding (text : Text) (start i : Nat) (out : Text) : Bool × St :=
  if !atEndOfNumber text i then (false, ⟨start, out⟩)
  else if i > start then
    let num := slice text start i
    if hasInvalidLeadingZero num then
      (true, ⟨i, out ++ '"' :: num ++ ['"']⟩)
    else (true, ⟨i, out ++ goTrimPlusSign num⟩)
  else (false, ⟨i, out⟩)

/-- Exponent part of `parseNumber` (entered after the mantissa, at an
`e`/`E` if present). -/
def parseNumberExponent (text : Text) (start i : Nat) (out : Text) : Bool × St :=
  if i < text.length && (tget text i = 'e' || tget text i = 'E') then
    let i2 := i + 1
    let signRun := (text.drop i2).takeWhile (fun c => c = '-' || c = '+')
    let hasMinus := signRun.contains '-'
    let hasPlus := signRun.contains '+'
    let i3 := i2 + signRun.length
    if atEndOfNumber text i3 then
      (true, ⟨i3, repairNumberEndingWithNumericSymbol text start i3 out⟩)
    else if !isDigit (tget text i3) then
      let num := slice text start i3
      let cleanNum := goTrimRightSet num ['e', 'E', '+', '-']
      let repairedNum := cleanNum ++ "e+0".toList
      (true, ⟨i3, out ++ goTrimPlusSign repairedNum⟩)
    else
      let numSoFar := slice text start i3
      match goLastIndexAny numSoFar ['e', 'E'] with
      | some eIdx =>
          let cleanNum := numSoFar.take (eIdx + 1) ++
            (if hasMinus then ['-'] else if hasPlus then ['+'] else [])
          let i4 := scanWhile isDigit text i3
          let finalNum := cleanNum ++ slice text i3 i4
          (true, ⟨i4, out ++ goTrimPlusSign finalNum⟩)
      | none => parseNumberEnding text start i3 out
  else parseNumberEnding text start i out

/-- Mantissa part of `parseNumber` after the optional sign. -/
def parseNumberBody (text : Text) (start iIn : Nat) (out : Text) : Bool × St :=
  let i1 := scanWhile isDigit text iIn
  if i1 < text.length && tget text i1 = '.' then
    let i2 := i1 + 1
    if atEndOfNumber text i2 then
      (true, ⟨i2, repairNumberEndingWithNumericSymbol text start i2 out⟩)
    else if !isDigit (tget text i2) then (false, ⟨start, out⟩)
    else parseNumberExponent text start (scanWhile isDigit text i2) out
  else parseNumberExponent text start i1 out

/-- Go `parseNumber`. -/
def parseNumber (text : Text) (st : St) : Bool × St :=
  let start := st.i
  if st.i < text.length && (tget text st.i = '-' || tget text st.i = '+') then
    let i1 := st.i + 1
    if atEndOfNumber text i1 then
      (true, ⟨i1, repairNumberEndingWithNumericSymbol text start i1 st.out⟩)
    else if !isDigit (tget text i1) then (false, ⟨start, st.out⟩)
    else parseNumberBody text start i1 st.out
  else parseNumberBody text start st.i st.out

/-- Go `parseKeyword`: prefix match of one keyword, emitting its
normalised value. -/
def parseKeyword (text : Text) (st : St) (name value : String) : Bool × St :=
  if text.length - st.i ≥ name.length &&
      (text.drop st.i).take name.length = name.toList then
    (true, ⟨st.i + name.length, st.out ++ value.toList⟩)
  else (false, st)

/-- Go `parseKeywords`: the six keywords tried in source order. -/
def parseKeywords (text : Text) (st : St) : Bool × St :=
  let (p1, st1) := parseKeyword text st "true" "true"
  if p1 then (true, st1) else
  let (p2, st2) := parseKeyword text st1 "false" "false"
  if p2 then (true, st2) else
  let (p3, st3) := parseKeyword text st2 "null" "null"
  if p3 then (true, st3) else
  let (p4, st4) := parseKeyword text st3 "True" "true"
  if p4 then (true, st4) else
  let (p5, st5) := parseKeyword text st4 "False" "false"
  if p5 then (true, st5) else
  parseKeyword text st5 "None" "null"

/-- Scan for the closing slash of a regex literal. -/
def regexScan : Nat → Text → Nat → Nat
  | 0, _, i => i
  | fuel + 1, text, i =>
      if i < text.length &&
          (tget text i ≠ '/' || tget text (i - 1) = '\\') then
        regexScan fuel text (i + 1)
      else i

/-- Go `parseRegex`. -/
def parseRegex (text : Text) (st : St) : Bool × St :=
  if st.i < text.length && tget text st.i = '/' then
    let start := st.i
    let i2 := regexScan (text.length + 1) text (st.i + 1)
    let i3 := if i2 < text.length && tget text i2 = '/' then i2 + 1 else i2
    let regexContent :=
      (slice text start i3).flatMap
        (fun c => if c = '\\' then ['\\', '\\'] else [c])
    (true, ⟨i3, st.out ++ '"' :: regexContent ++ ['"']⟩)
  else (false, st)

/-- Go `skipMarkdownCodeBlock`. -/
def skipMarkdownCodeBlock (text : Text) (blocks : List String) (st : St) :
    Bool × St :=
  let (_, st1) := parseWhitespace text true st
  match blocks.find? (fun b => (text.drop st1.i).take b.length = b.toList) with
  | some b => (true, ⟨st1.i + b.length, st1.out⟩)
  | none => (false, st1)

/-! ## String-parser lookahead helpers -/

/-- The four quote-style predicates of the source, as a closed enumeration
(`isDoubleQuote`, `isSingleQuote`, `isDoubleQuoteLike`, `isSingleQuoteLike`). -/
inductive QStyle where
  | dq
  | sq
  | dqLike
  | sqLike
deriving DecidableEq, Repr

/-- Apply a quote-style predicate. -/
def qtest : QStyle → Char → Bool
  | .dq => isDoubleQuote
  | .sq => isSingleQuote
  | .dqLike => isDoubleQuoteLike
  | .sqLike => isSingleQuoteLike

/-- One candidate of the best-end-quote scan of `parseString`: the first
quote of the given style on the line after `i` that is followed (after
whitespace) by a colon or equals sign. -/
def bestQuoteCandidate (text : Text) (i : Nat) (q : QStyle) : Option Nat :=
  let k := scanWhile (fun c => !qtest q c && c ≠ '\n' && c ≠ '\r') text (i + 1)
  if k < text.length && qtest q (tget text k) then
    let nextIdx := scanWhile isWhitespace text (k + 1)
    if nextIdx < text.length &&
        (tget text nextIdx = ':' || tget text nextIdx = '=') then some k
    else none
  else none

/-- The best-end-quote selection of `parseString`: the earliest candidate
wins (ties go to the earlier predicate in the list). -/
def selectEndQuote (text : Text) (i : Nat) (initial : QStyle) : QStyle :=
  if i + 1 < text.length then
    let cands := [QStyle.dq, QStyle.sq, QStyle.dqLike, QStyle.sqLike].filterMap
      (fun q => (bestQuoteCandidate text i q).map (fun k => (k, q)))
    match cands.foldl
      (fun best kq =>
        match best with
        | none => some kq
        | some bkq => if kq.1 < bkq.1 then some kq else some bkq) none with
    | some bkq => bkq.2
    | none => initial
  else initial

/-- Whether a quote of the given style occurs from `start` up to the next
newline. -/
def existsEndQuoteOnLine (text : Text) (q : QStyle) (start : Nat) : Bool :=
  ((text.drop start).takeWhile (fun c => c ≠ '\n' && c ≠ '\r')).any (qtest q)

/-- Lookahead for the comma-inside-string heuristic: the first quote on the
line is followed (after whitespace) by a colon or equals sign. -/
def scanFirstQuoteColon : Nat → Text → Nat → Bool
  | 0, _, _ => false
  | fuel + 1, text, k =>
      if k < text.length && tget text k ≠ '\n' && tget text k ≠ '\r' then
        if isQuote (tget text k) then
          let n := scanWhile isWhitespace text (k + 1)
          n < text.length && (tget text n = ':' || tget text n = '=')
        else scanFirstQuoteColon fuel text (k + 1)
      else false

/-- Lookahead for the comma-inside-string heuristic: a colon or equals sign
before the next delimiter or newline. -/
def scanHasColonNoDelim (text : Text) (k : Nat) : Bool :=
  ((text.drop k).takeWhile
    (fun c => c ≠ '\n' && c ≠ '\r' && !isDelimiter c)).any
    (fun c => c = ':' || c = '=')

/-- The comma case of the embedded-delimiter heuristic of `parseString`:
whether the comma at `i` should be treated as string content. -/
def stringCommaDelimCheck (text : Text) (q : QStyle) (i : Nat) : Bool :=
  let nextIdx := scanWhile isWhitespace text (i + 1)
  if nextIdx < text.length then
    let nextChar := tget text nextIdx
    if isQuote nextChar then
      !scanFirstQuoteColon (text.length + 1) text (nextIdx + 1)
    else if isStartOfValue nextChar then
      existsEndQuoteOnLine text q (i + 1)
    else !scanHasColonNoDelim text nextIdx
  else false

/-- Lowercase hex digit of a nibble. -/
def toHexDigit (n : Nat) : Char :=
  if n < 10 then Char.ofNat (48 + n) else Char.ofNat (87 + n)

/-- Replacement of a control character inside a string: the mapped JSON
escape, or a `\uXXXX` escape (`fmt.Sprintf("\\u%04x", char)`). -/
def controlCharReplacement (c : Char) : Text :=
  match controlCharacters c with
  | some r => r
  | none =>
      ['\\', 'u', toHexDigit (code c / 4096 % 16), toHexDigit (code c / 256 % 16),
       toHexDigit (code c / 16 % 16), toHexDigit (code c % 16)]

/-- Ending of `parseString` when the input runs out or an embedded delimiter
ends the string: trim and emit the accumulated content in quotes. -/
def stringEnd (trim : Bool) (i : Nat) (str out : Text) : Bool × St :=
  let content := if trim then stringTrimReplace str else goTrimTrailingWsUnits str
  (true, ⟨i, out ++ '"' :: content ++ ['"']⟩)

/-! ## Unquoted-string scanning -/

/-- One break test of the consumption loop of `parseUnquotedStringWithMode`
(the sequential break conditions of the source, which are side-effect free). -/
def unquotedBreakNow (text : Text) (isKey : Bool) (start i : Nat) : Bool :=
  let c := tget text i
  (isQuote c &&
    (isKey ||
      (let j := scanWhile isWhitespace text (i + 1)
       j < text.length &&
         (isUnquotedStringDelimiter (tget text j) || tget text j = ':' ||
          tget text j = '=')))) ||
  (isKey && (c = ':' || c = '=') &&
    !(c = ':' && i + 2 < text.length && tget text (i + 1) = '/' &&
      tget text (i + 2) = '/' &&
      (let protocol := letterRunBeforeFrom text start i
       protocol = "http".toList || protocol = "https".toList ||
       protocol = "ftp".toList))) ||
  (!isKey && (c = ':' || c = '=') &&
    (!isURLStart text i && lookAheadForColon text i)) ||
  (!isKey && (c = '}' || c = ']')) ||
  ((c = '\n' || c = '\r') && (isKey || lookAheadForColon text i)) ||
  (c = '/' && i + 1 < text.length &&
    (tget text (i + 1) = '/' || tget text (i + 1) = '*') &&
    !(i > 0 && tget text (i - 1) = ':' &&
      (let protocol := letterRunBeforeFrom text start (i - 1)
       protocol = "http".toList || protocol = "https".toList ||
       protocol = "ftp".toList)))

/-- Consumption loop of `parseUnquotedStringWithMode`: final cursor. -/
def unquotedLoop : Nat → Text → Bool → Nat → Nat → Nat
  | 0, _, _, _, i => i
  | fuel + 1, text, isKey, start, i =>
      if i ≥ text.length || isUnquotedStringDelimiter (tget text i) then i
      else if unquotedBreakNow text isKey start i then i
      else unquotedLoop fuel text isKey start (i + 1)

/-- Ending of `parseUnquotedStringWithMode`: trim trailing whitespace,
special-case `undefined`, escape the symbol, emit it quoted, and skip one
trailing double quote. -/
def unquotedFinish (text : Text) (trim : Bool) (start i : Nat) (out : Text) :
    Bool × St :=
  if i > start then
    let core := slice text start i
    let symbol := (core.reverse.dropWhile isWhitespace).reverse
    let out2 :=
      if symbol = "undefined".toList then out ++ "null".toList
      else
        let repairedSymbol := symbol.flatMap (fun c =>
          if c = '"' || isDoubleQuoteLike c then ['\\', '"']
          else if c = '\\' then ['\\', '\\']
          else if c = '\n' then ['\\', 'n']
          else if c = '\r' then ['\\', 'r']
          else if c = '\t' then ['\\', 't']
          else [c])
        let content := if trim then stringTrimReplace repairedSymbol
          else repairedSymbol
        out ++ '"' :: content ++ ['"']
    let i2 := if i < text.length && tget text i = '"' then i + 1 else i
    (true, ⟨i2, out2⟩)
  else (false, ⟨i, out⟩)

/-! ## Object and array bookkeeping helpers -/

/-- Remove a dangling comma: if everything after the last comma of the
output is whitespace, drop that comma (shared cleanup of the object and
array parsers). -/
def stripDanglingComma (out : Text) : Text :=
  match goLastIndexOfChar out ',' with
  | some idx =>
      let contentAfter := out.drop (idx + 1)
      if goTrimSpace contentAfter = [] then out.take idx ++ contentAfter
      else out
  | none => out

/-- Loop `for skipCharacter(comma) { parseWhitespaceAndSkipComments }` of the
object parser. -/
def objSkipCommasLoop : Nat → Text → St → St
  | 0, _, st => st
  | fuel + 1, text, st =>
      if st.i < text.length && tget text st.i = ',' then
        let (_, st2) := parseWhitespaceAndSkipComments text true ⟨st.i + 1, st.out⟩
        objSkipCommasLoop fuel text st2
      else st

/-- Loop `for skipCharacter(colon) { parseWhitespaceAndSkipComments }` of the
object parser. -/
def objSkipColonsLoop : Nat → Text → St → St
  | 0, _, st => st
  | fuel + 1, text, st =>
      if st.i < text.length && tget text st.i = ':' then
        let (_, st2) := parseWhitespaceAndSkipComments text true ⟨st.i + 1, st.out⟩
        objSkipColonsLoop fuel text st2
      else st

/-- Loop `for parseComment { parseWhitespaceAndSkipComments(output) }` of the
object parser (writes whitespace to the output). -/
def commentsWSCLoop : Nat → Text → St → St
  | 0, _, st => st
  | fuel + 1, text, st =>
      let (changed, i2) := parseComment text st.i
      if changed then
        let (_, st2) := parseWhitespaceAndSkipComments text true ⟨i2, st.out⟩
        commentsWSCLoop fuel text st2
      else st

/-- Lookahead `parseWSC(dummy)` followed by `for parseComment { parseWSC(dummy) }`
used around the colon recovery. -/
def skipWSCThenComments (text : Text) (i : Nat) : Nat :=
  skipCommentsWSCIdx (text.length + 1) text (skipWSCIdx text i)

/-- Comma handling between object entries (the `!initial` block of the
object-parser loop). -/
def objectCommaStep (text : Text) (st1 : St) : St :=
  let iBefore := st1.i
  let oBefore := st1.out.length
  let (pc, st2) := parseCharacter text st1 ','
  if pc then
    let (_, st3) := parseWhitespaceAndSkipComments text true st2
    let st4 := objSkipCommasLoop (text.length + 1) text st3
    if goEndsWith st4.out [','] then
      let temp1 := st4.out.take (st4.out.length - 1)
      let temp2 := insertBeforeLastWhitespace temp1 [',']
      let temp3 :=
        match goLastIndexOfChar temp2 '\n' with
        | some idx =>
            let run := (temp2.drop (idx + 1)).takeWhile
              (fun c => c = ' ' || c = '\t')
            if idx + 1 + run.length = temp2.length then temp2.take (idx + 1)
            else temp2
        | none => temp2
      ⟨st4.i, temp3⟩
    else st4
  else
    let j := skipWSCIdx text st2.i
    let isNewKey := j < text.length &&
      (isQuote (tget text j) || isLetter (tget text j))
    if isNewKey then {st2 with out := insertBeforeLastWhitespace st2.out [',']}
    else ⟨iBefore, insertBeforeLastWhitespace (st2.out.take oBefore) [',']⟩

/-- Extra-comma loop of the array parser: repeated commas either synthesize
`null` elements or are removed before the closing bracket. -/
def arrayExtraCommaLoop : Nat → Text → St → St
  | 0, _, st => st
  | fuel + 1, text, st =>
      let iBeforeExtra := st.i
      let (_, s1) := parseWhitespaceAndSkipComments text true st
      let (pc, s2) := parseCharacter text s1 ','
      if pc then
        match goLastIndexOfChar s2.out ',' with
        | some lastCommaIdx =>
            let j := skipWSCIdx text s2.i
            let out2 :=
              if j < text.length && tget text j = ']' then
                s2.out.take lastCommaIdx
              else
                s2.out.take lastCommaIdx ++ "null".toList ++
                  s2.out.drop lastCommaIdx
            arrayExtraCommaLoop fuel text ⟨s2.i, out2⟩
        | none => arrayExtraCommaLoop fuel text s2
      else ⟨iBeforeExtra, st.out⟩

/-- Result of a parser that reports success and may abort with an error
(Go `(bool, error)`). -/
inductive Res where
  | ok (b : Bool) (st : St)
  | fail (e : RepairError) (st : St)
deriving DecidableEq, Repr

/-- Result of the entry loops of the object and array parsers: normal exit,
a `return false, nil` unwinding, or a fatal error. -/
inductive LoopRes where
  | done (st : St)
  | exitFalse (st : St)
  | fail (e : RepairError) (st : St)
deriving DecidableEq, Repr

/-- Common ending of the value dispatcher: trailing whitespace and comments
are consumed before returning. -/
def valueFinish (text : Text) (b : Bool) (st : St) : Option Res :=
  let (_, st2) := parseWhitespaceAndSkipComments text true st
  some (.ok b st2)

/-- The extended-constructor names recognised by the value dispatcher. -/
def isMongoName (name : Text) : Bool :=
  name = "ObjectId".toList || name = "NumberLong".toList ||
  name = "NumberInt".toList || name = "ISODate".toList ||
  name = "BinData".toList

/-! ## The mutually recursive parser core.

Each parser takes a fuel parameter that strictly decreases on every nested
call and loop iteration; `none` marks fuel exhaustion.  The fuel budgets used
by `JSONRepair` are ample for the inputs in the theorems below. -/

mutual

/-- Go `parseValue`: object, extended constructor, array, string, number,
keyword, unquoted string, regex — in source order, with cursor and output
restored after failed attempts. -/
def parseValue : Nat → Text → Bool → St → Option Res
  | 0, _, _, _ => none
  | fuel + 1, text, trim, st =>
      let (_, s1) := parseWhitespaceAndSkipComments text true st
      let iBeforeObj := s1.i
      let oBeforeObj := s1.out.length
      match parseObject fuel text trim s1 with
      | none => none
      | some (.fail e sE) => some (.fail e sE)
      | some (.ok true s2) => valueFinish text true s2
      | some (.ok false s2) =>
          let s3 : St :=
            ⟨iBeforeObj,
             if s2.out.length > oBeforeObj then s2.out.take oBeforeObj
             else s2.out⟩
          if s3.i < text.length && isFunctionNameCharStart (tget text s3.i) then
            let j := scanWhile isFunctionNameChar text s3.i
            let name := slice text s3.i j
            if isMongoName name then
              let k := scanWhile isWhitespace text j
              if k ≥ text.length || tget text k ≠ '(' then
                match parseUnquotedStringWithMode fuel text false trim ⟨k, []⟩ with
                | none => none
                | some (true, sI) =>
                    let val := sI.out
                    let piece :=
                      if goStartsWith val ['"'] && goEndsWith val ['"'] then
                        '(' :: val ++ [')']
                      else '(' :: '"' :: (val ++ ['"', ')'])
                    some (.ok true
                      ⟨sI.i, s3.out ++ '"' :: (name ++ ['"']) ++ piece⟩)
                | some (false, _) => parseValueFallback fuel text trim s3
              else parseValueFallback fuel text trim s3
            else parseValueFallback fuel text trim s3
          else parseValueFallback fuel text trim s3

/-- Fallback chain of the value dispatcher after the object and extended
constructor attempts failed. -/
def parseValueFallback : Nat → Text → Bool → St → Option Res
  | 0, _, _, _ => none
  | fuel + 1, text, trim, st =>
      match parseArray fuel text trim st with
      | none => none
      | some (.fail e sE) => some (.fail e sE)
      | some (.ok true s1) => valueFinish text true s1
      | some (.ok false s1) =>
          match parseString fuel text false (-1) trim s1 with
          | none => none
          | some (true, s2) => valueFinish text true s2
          | some (false, s2) =>
              let (pn, s3) := parseNumber text s2
              if pn then valueFinish text true s3 else
              let (pk, s4) := parseKeywords text s3
              if pk then valueFinish text true s4 else
              match parseUnquotedStringWithMode fuel text false trim s4 with
              | none => none
              | some (true, s5) => valueFinish text true s5
              | some (false, s5) =>
                  let (pr, s6) := parseRegex text s5
                  valueFinish text pr s6

/-- Go `parseObject`: a real `{`, or a braceless `key:`/`key=` probe that
synthesizes the opening brace. -/
def parseObject : Nat → Text → Bool → St → Option Res
  | 0, _, _, _ => none
  | fuel + 1, text, trim, st =>
      if st.i ≥ text.length then some (.ok false st)
      else if tget text st.i = '{' then
        parseObjectAfterOpen fuel text trim ⟨st.i + 1, st.out ++ ['{']⟩
      else
        let (_, t1) := parseWhitespaceAndSkipComments text true ⟨st.i, []⟩
        match parseString fuel text false (-1) trim t1 with
        | none => none
        | some (true, t2) => parseObjectBraceless fuel text trim st true true t2
        | some (false, t2) =>
            match parseUnquotedStringWithMode fuel text true trim t2 with
            | none => none
            | some (up, t3) => parseObjectBraceless fuel text trim st false up t3

/-- Braceless-object probe of `parseObject` after the key attempt:
strictness checks, the URL-scheme guard, and the colon/equals test that
decides whether to synthesize `{`. -/
def parseObjectBraceless :
    Nat → Text → Bool → St → Bool → Bool → St → Option Res
  | 0, _, _, _, _, _, _ => none
  | fuel + 1, text, trim, origSt, stringProcessed, processedKey, tK =>
      let iBefore := origSt.i
      if !processedKey then some (.ok false ⟨iBefore, origSt.out⟩)
      else
        let key := goTrimChar (goTrimSpace tK.out) '"'
        if !stringProcessed &&
            (key = [] || key.headD ' ' = '<' || goCountChar key ' ' > 1) then
          some (.ok false ⟨iBefore, origSt.out⟩)
        else if (key = "http".toList || key = "https".toList ||
            key = "ftp".toList) &&
            tK.i < text.length && tget text tK.i = ':' &&
            tK.i + 2 < text.length && tget text (tK.i + 1) = '/' &&
            tget text (tK.i + 2) = '/' then
          some (.ok false ⟨iBefore, origSt.out⟩)
        else
          let (_, t5) := parseWhitespaceAndSkipComments text true tK
          if t5.i < text.length &&
              (tget text t5.i = ':' || tget text t5.i = '=') then
            parseObjectAfterOpen fuel text trim ⟨iBefore, origSt.out ++ ['{']⟩
          else some (.ok false ⟨iBefore, origSt.out⟩)

/-- Body of `parseObject` once the opening brace (real or synthesized) has
been written: entry loop, then the closing brace (consumed or synthesized). -/
def parseObjectAfterOpen : Nat → Text → Bool → St → Option Res
  | 0, _, _, _ => none
  | fuel + 1, text, trim, st =>
      let (_, s1) := parseWhitespaceAndSkipComments text true st
      let s2 :=
        let (sk, i2) := skipCharacter text s1.i ','
        if sk then (parseWhitespaceAndSkipComments text true ⟨i2, s1.out⟩).2
        else s1
      match parseObjectLoop fuel text trim true s2 with
      | none => none
      | some (.fail e sE) => some (.fail e sE)
      | some (.exitFalse sX) => some (.ok false sX)
      | some (.done s3) =>
          if s3.i < text.length && tget text s3.i = '}' then
            some (.ok true ⟨s3.i + 1, s3.out ++ ['}']⟩)
          else some (.ok true ⟨s3.i, insertBeforeLastWhitespace s3.out ['}']⟩)

/-- Entry loop of the object parser: whitespace, inter-entry comma repair,
key parsing, and dispatch to the colon/value machinery. -/
def parseObjectLoop : Nat → Text → Bool → Bool → St → Option LoopRes
  | 0, _, _, _, _ => none
  | fuel + 1, text, trim, initial, st =>
      let (_, s1) := parseWhitespaceAndSkipComments text true st
      if s1.i ≥ text.length || tget text s1.i = '}' then some (.done s1)
      else
        let s2 := if !initial then objectCommaStep text s1 else s1
        let (_, s3) := skipEllipsis text s2
        let iKeyStart := s3.i
        match parseString fuel text false (-1) trim ⟨s3.i, []⟩ with
        | none => none
        | some (true, k1) =>
            parseObjectLoopAfterKey fuel text trim s3.out iKeyStart true true k1
        | some (false, k1) =>
            match parseUnquotedStringWithMode fuel text true trim k1 with
            | none => none
            | some (up, k2) =>
                parseObjectLoopAfterKey fuel text trim s3.out iKeyStart false up k2

/-- Continuation of the object-entry loop after the key attempt: stray-comma
cleanup and close detection when no key parsed, or key emission with the
URL-scheme guard. -/
def parseObjectLoopAfterKey :
    Nat → Text → Bool → Text → Nat → Bool → Bool → St → Option LoopRes
  | 0, _, _, _, _, _, _, _ => none
  | fuel + 1, text, trim, realOut, iKeyStart, _stringProcessed, processedKey, kSt =>
      if !processedKey then
        let out1 := stripDanglingComma realOut
        let j := skipWSCIdx text kSt.i
        if j < text.length && tget text j = '}' then some (.done ⟨j, out1⟩)
        else if kSt.i ≥ text.length || tget text kSt.i = '}' ||
            tget text kSt.i = '{' || tget text kSt.i = ']' ||
            tget text kSt.i = '[' || code (tget text kSt.i) = 0 then
          some (.done ⟨kSt.i, stripLastOccurrence out1 ',' false⟩)
        else some (.fail (newObjectKeyExpectedError kSt.i) ⟨kSt.i, out1⟩)
      else
        let key :=
          if trim then
            if goStartsWith kSt.out ['"'] && goEndsWith kSt.out ['"'] then
              '"' :: stringTrimReplace
                ((kSt.out.drop 1).take (kSt.out.length - 2)) ++ ['"']
            else stringTrimReplace kSt.out
          else kSt.out
        let keyTrimmed := goTrimChar (goTrimSpace key) '"'
        if (keyTrimmed = "http".toList || keyTrimmed = "https".toList ||
            keyTrimmed = "ftp".toList) &&
            kSt.i < text.length && tget text kSt.i = ':' &&
            kSt.i + 2 < text.length && tget text (kSt.i + 1) = '/' &&
            tget text (kSt.i + 2) = '/' then
          some (.exitFalse ⟨iKeyStart, realOut⟩)
        else parseObjectLoopColon fuel text trim ⟨kSt.i, realOut ++ key⟩

/-- Colon recovery and value parsing of one object entry, ending with the
next loop iteration. -/
def parseObjectLoopColon : Nat → Text → Bool → St → Option LoopRes
  | 0, _, _, _ => none
  | fuel + 1, text, trim, st =>
      let (_, s1) := parseWhitespaceAndSkipComments text true st
      let s2 := commentsWSCLoop (text.length + 1) text s1
      let (_, s3) := parseWhitespaceAndSkipComments text true s2
      let iBeforeColon := s3.i
      let (pc0, s4) := parseCharacter text s3 ':'
      let (pc1, s5) :=
        if pc0 then (true, s4)
        else
          let j := skipWSCThenComments text s4.i
          if j < text.length && tget text j = ':' then
            parseCharacter text ⟨j, s4.out⟩ ':'
          else
            let k := skipWSCThenComments text iBeforeColon
            if k < text.length &&
                (isQuote (tget text k) || isLetter (tget text k) ||
                 isDigit (tget text k) || tget text k = '{' ||
                 tget text k = '[') then
              (true, ⟨k, insertBeforeLastWhitespace s4.out [':']⟩)
            else (false, s4)
      let s6 :=
        if pc1 then
          let (_, sa) := parseWhitespaceAndSkipComments text true s5
          objSkipColonsLoop (text.length + 1) text sa
        else s5
      let (pc2, s7) :=
        if !pc1 then
          let (sk, i2) := skipCharacter text s6.i '='
          if sk then (true, ⟨i2, insertBeforeLastWhitespace s6.out [':']⟩)
          else (false, s6)
        else (pc1, s6)
      let truncatedText := s7.i ≥ text.length
      if !pc2 && !truncatedText then
        some (.fail (newColonExpectedError s7.i) s7)
      else
        let s8 :=
          if !pc2 then ⟨s7.i, insertBeforeLastWhitespace s7.out [':']⟩ else s7
        let processedColon := true
        let i9 := commentsOnlyLoop (text.length + 1) text s8.i
        let (_, s10) := parseWhitespaceAndSkipComments text true ⟨i9, s8.out⟩
        match parseValue fuel text trim s10 with
        | none => none
        | some (.fail e sE) => some (.fail e sE)
        | some (.ok pv s11) =>
            if !pv && !(processedColon || truncatedText) then
              some (.exitFalse s11)
            else
              let s12 :=
                if !pv then ⟨s11.i, s11.out ++ "null".toList⟩ else s11
              let i13 := commentsOnlyLoop (text.length + 1) text s12.i
              let (_, s14) := parseWhitespaceAndSkipComments text true
                ⟨i13, s12.out⟩
              parseObjectLoop fuel text trim false s14

/-- Go `parseArray`. -/
def parseArray : Nat → Text → Bool → St → Option Res
  | 0, _, _, _ => none
  | fuel + 1, text, trim, st =>
      if st.i ≥ text.length then some (.ok false st)
      else if tget text st.i = '[' then
        let (_, s1) := parseWhitespaceAndSkipComments text true
          ⟨st.i + 1, st.out ++ ['[']⟩
        match parseArrayLoop fuel text trim true s1 with
        | none => none
        | some (.fail e sE) => some (.fail e sE)
        | some (.exitFalse sX) => some (.ok false sX)
        | some (.done s2) =>
            if s2.i < text.length && tget text s2.i = ']' then
              some (.ok true ⟨s2.i + 1, s2.out ++ [']']⟩)
            else some (.ok true ⟨s2.i, insertBeforeLastWhitespace s2.out [']']⟩)
      else some (.ok false st)

/-- Element loop of the array parser: missing/extra comma repair, ellipsis
skipping, the enclosing-object check, and element parsing. -/
def parseArrayLoop : Nat → Text → Bool → Bool → St → Option LoopRes
  | 0, _, _, _, _ => none
  | fuel + 1, text, trim, initial, st =>
      if st.i ≥ text.length || tget text st.i = ']' then some (.done st)
      else
        let st2 :=
          if !initial then
            let iBefore := st.i
            let oBefore := st.out.length
            let (_, s1) := parseWhitespaceAndSkipComments text true st
            let isNewValue := s1.i < text.length &&
              (let c := tget text s1.i
               isQuote c || c = '{' || c = '[' || isDigit c || c = '-' ||
               c = '+' || isLetter c)
            let (pc, s2) := parseCharacter text s1 ','
            if !pc then
              if isNewValue then
                ⟨s2.i, insertBeforeLastWhitespace s2.out [',']⟩
              else ⟨iBefore, insertBeforeLastWhitespace (s2.out.take oBefore) [',']⟩
            else arrayExtraCommaLoop (text.length + 1) text s2
          else
            let (sk, i2) := skipCharacter text st.i ','
            if sk then ⟨i2, st.out ++ "null,".toList⟩ else st
        let (_, s4) := parseWhitespaceAndSkipComments text true st2
        let (_, s5) := skipEllipsis text s4
        let j := skipWSCIdx text s5.i
        if j < text.length then
          match parseString fuel text false (-1) trim ⟨j, []⟩ with
          | none => none
          | some (true, o1) => parseArrayLoopOuter fuel text trim s5 j true o1
          | some (false, o1) =>
              match parseUnquotedStringWithMode fuel text true trim o1 with
              | none => none
              | some (up, o2) => parseArrayLoopOuter fuel text trim s5 j up o2
        else parseArrayLoopValue fuel text trim s5

/-- The enclosing-object check of the array loop: a `key:` pair or a `}`
ahead closes the array early, trimming a dangling comma. -/
def parseArrayLoopOuter :
    Nat → Text → Bool → St → Nat → Bool → St → Option LoopRes
  | 0, _, _, _, _, _, _ => none
  | fuel + 1, text, trim, s5, j, processedKey, o2 =>
      let isOuterElement :=
        if processedKey then
          let iT := skipWSCIdx text o2.i
          iT < text.length && (tget text iT = ':' || tget text iT = '=')
        else tget text j = '}'
      if isOuterElement then some (.done ⟨s5.i, stripDanglingComma s5.out⟩)
      else parseArrayLoopValue fuel text trim s5

/-- Element parsing of the array loop: a failed element ends the array with
dangling-comma cleanup; a parsed element continues the loop. -/
def parseArrayLoopValue : Nat → Text → Bool → St → Option LoopRes
  | 0, _, _, _ => none
  | fuel + 1, text, trim, s5 =>
      match parseValue fuel text trim s5 with
      | none => none
      | some (.fail e sE) => some (.fail e sE)
      | some (.ok pv s6) =>
          if !pv then some (.done ⟨s6.i, stripDanglingComma s6.out⟩)
          else parseArrayLoop fuel text trim false s6

/-- Go `parseString` (the `stopAtDelimiter` and `stopAtIndex` parameters of
the source are unused there and kept for fidelity; the source never returns
a non-nil error from this function). -/
def parseString : Nat → Text → Bool → Int → Bool → St → Option (Bool × St)
  | 0, _, _, _, _, _ => none
  | fuel + 1, text, _stopAtDelimiter, _stopAtIndex, trim, st =>
      if st.i ≥ text.length then some (false, st)
      else
        let char := tget text st.i
        if isQuote char then
          let q0 :=
            if isSingleQuote char then QStyle.sq
            else if isDoubleQuoteLike char then QStyle.dqLike
            else if isSingleQuoteLike char then QStyle.sqLike
            else QStyle.dq
          let q := selectEndQuote text st.i q0
          let isFilePath := analyzePotentialFilePath text st.i
          parseStringLoop fuel text trim q isFilePath (st.i + 1) [] st.out
        else some (false, st)

/-- Character loop of the string parser, carrying the cursor, the content
accumulator `str`, and the output. -/
def parseStringLoop :
    Nat → Text → Bool → QStyle → Bool → Nat → Text → Text → Option (Bool × St)
  | 0, _, _, _, _, _, _, _ => none
  | fuel + 1, text, trim, q, isFilePath, i, str, out =>
      if i ≥ text.length then some (stringEnd trim i str out)
      else
        let currentChar := tget text i
        if isQuote currentChar then
          let isOfficialEndQuote := qtest q currentChar
          let j := skipWSCIdx text (i + 1)
          let isReal0 :=
            if j ≥ text.length then true
            else
              let nextChar := tget text j
              if nextChar = ',' || nextChar = '}' || nextChar = ']' ||
                  nextChar = ':' || nextChar = '=' || nextChar = '+' then true
              else isQuote nextChar || isLetter nextChar || isDigit nextChar
          let isRealEndQuote :=
            if isReal0 && !isOfficialEndQuote then
              !existsEndQuoteOnLine text q (i + 1)
            else isReal0
          if isRealEndQuote then
            match parseConcatenatedString fuel text trim ⟨i + 1, out⟩ with
            | none => none
            | some (true, st2) =>
                parseStringLoop fuel text trim q isFilePath st2.i
                  (str ++ st2.out) []
            | some (false, st2) =>
                if isNumericString str then some (true, ⟨st2.i, st2.out ++ str⟩)
                else some (true, ⟨st2.i, st2.out ++ '"' :: str ++ ['"']⟩)
          else
            let str2 := if currentChar = '"' then str ++ ['\\', '"']
              else str ++ [currentChar]
            parseStringLoop fuel text trim q isFilePath (i + 1) str2 out
        else if currentChar = '\\' then
          if isFilePath then
            parseStringLoop fuel text trim q isFilePath (i + 1)
              (str ++ ['\\', '\\']) out
          else
            let i2 := i + 1
            if i2 < text.length then
              let c2 := tget text i2
              if isEscapeCharacter c2 then
                if c2 = 'u' then
                  let hexRun := ((text.drop (i2 + 1)).takeWhile isHex).take 4
                  let hexCount := hexRun.length
                  let str3 := str ++ ['\\', 'u'] ++ hexRun
                  let str4 :=
                    if hexCount < 4 then
                      str3.take (str3.length - (hexCount + 2)) ++
                        ['\\', '\\', 'u'] ++
                        str3.drop (str3.length - hexCount)
                    else str3
                  parseStringLoop fuel text trim q isFilePath
                    (i2 + hexCount + 1) str4 out
                else
                  parseStringLoop fuel text trim q isFilePath (i2 + 1)
                    (str ++ ['\\', c2]) out
              else
                parseStringLoop fuel text trim q isFilePath i2
                  (str ++ ['\\', '\\']) out
            else
              parseStringLoop fuel text trim q isFilePath i2
                (str ++ ['\\', '\\']) out
        else
          let breakNow :=
            !isFilePath &&
            (currentChar = ',' || currentChar = '}' || currentChar = ']') &&
            (let foundEndQuote :=
               if currentChar = '}' || currentChar = ']' then
                 existsEndQuoteOnLine text q (i + 1)
               else stringCommaDelimCheck text q i
             !foundEndQuote)
          if breakNow then some (stringEnd trim i str out)
          else
            let str2 :=
              if currentChar = '"' then str ++ ['\\', '"']
              else if isControlCharacter currentChar then
                str ++ controlCharReplacement currentChar
              else str ++ [currentChar]
            parseStringLoop fuel text trim q isFilePath (i + 1) str2 out

/-- Go `parseConcatenatedString`: splice `"a" + "b"` chains; cursor and
output restored when no `+` follows. -/
def parseConcatenatedString : Nat → Text → Bool → St → Option (Bool × St)
  | 0, _, _, _ => none
  | fuel + 1, text, trim, st =>
      let iBeforeWhitespace := st.i
      let oBeforeWhitespace := st.out.length
      let (_, s1) := parseWhitespaceAndSkipComments text true st
      match parseConcatLoop fuel text trim false s1 with
      | none => none
      | some (processed, s2) =>
          if processed then some (true, s2)
          else some (false, ⟨iBeforeWhitespace, s2.out.take oBeforeWhitespace⟩)

/-- Plus-chain loop of `parseConcatenatedString`. -/
def parseConcatLoop : Nat → Text → Bool → Bool → St → Option (Bool × St)
  | 0, _, _, _, _ => none
  | fuel + 1, text, trim, processed, st =>
      if st.i < text.length && tget text st.i = '+' then
        let (_, s1) := parseWhitespaceAndSkipComments text true ⟨st.i + 1, st.out⟩
        let out2 := stripLastOccurrence s1.out '"' true
        let start := out2.length
        match parseString fuel text false (-1) trim ⟨s1.i, out2⟩ with
        | none => none
        | some (sp, s2) =>
            let s3 :=
              if sp then
                if s2.out.length > start then
                  ⟨s2.i, removeAtIndex s2.out start 1⟩
                else s2
              else ⟨s2.i, insertBeforeLastWhitespace s2.out ['"']⟩
            parseConcatLoop fuel text trim true s3
      else some (processed, st)

/-- Go `parseUnquotedStringWithMode`: a `Name(...)` function call is
swallowed around a nested value; otherwise a bare symbol is scanned and
re-emitted as a quoted string. -/
def parseUnquotedStringWithMode : Nat → Text → Bool → Bool → St → Option (Bool × St)
  | 0, _, _, _, _ => none
  | fuel + 1, text, isKey, trim, st =>
      let start := st.i
      if st.i ≥ text.length then some (false, st)
      else if isFunctionNameCharStart (tget text st.i) then
        let i1 := scanWhile isFunctionNameChar text st.i
        let j := scanWhile isWhitespace text i1
        if j < text.length && tget text j = '(' then
          match parseValue fuel text trim ⟨j + 1, st.out⟩ with
          | none => none
          | some r =>
              let sV := match r with | .ok _ s => s | .fail _ s => s
              let i3 :=
                if sV.i < text.length && tget text sV.i = ')' then
                  if sV.i + 1 < text.length && tget text (sV.i + 1) = ';' then
                    sV.i + 2
                  else sV.i + 1
                else sV.i
              some (true, ⟨i3, sV.out⟩)
        else
          let iEnd := unquotedLoop (text.length + 1) text isKey start i1
          some (unquotedFinish text trim start iEnd st.out)
      else
        let iEnd := unquotedLoop (text.length + 1) text isKey start start
        some (unquotedFinish text trim start iEnd st.out)

end

/-- Go `parseUnquotedString`. -/
def parseUnquotedString (fuel : Nat) (text : Text) (trim : Bool) (st : St) :
    Option (Bool × St) :=
  parseUnquotedStringWithMode fuel text false trim st

/-- Whitespace copy at the end of `parseMarkdownCodeBlock` (special
whitespace is covered by `isWhitespace`, so it is copied verbatim). -/
def markdownTrailingWs (text : Text) (i : Nat) (out : Text) : St :=
  let run := (text.drop i).takeWhile
    (fun c => isWhitespace c || isSpecialWhitespace c)
  ⟨i + run.length, out ++ run.map (fun c => if isWhitespace c then c else ' ')⟩

/-- Go `parseMarkdownCodeBlock`: strip a code fence, then handle a bare
extended-constructor identifier or skip a stray identifier, then copy
trailing whitespace. -/
def parseMarkdownCodeBlock (fuel : Nat) (text : Text) (blocks : List String)
    (trim : Bool) (st : St) : Option (Bool × St) :=
  let (skipped, st1) := skipMarkdownCodeBlock text blocks st
  if !skipped then some (false, st1)
  else
    if st1.i < text.length && isFunctionNameCharStart (tget text st1.i) then
      let j := scanWhile isFunctionNameChar text st1.i
      let name := slice text st1.i j
      if isMongoName name then
        let k := scanWhile isWhitespace text j
        if k ≥ text.length || tget text k ≠ '(' then
          match parseUnquotedString fuel text trim ⟨k, []⟩ with
          | none => none
          | some (true, sI) =>
              let val := sI.out
              let piece :=
                if goStartsWith val ['"'] && goEndsWith val ['"'] then
                  '(' :: val ++ [')']
                else '(' :: '"' :: (val ++ ['"', ')'])
              some (true, ⟨sI.i, st1.out ++ '"' :: (name ++ ['"']) ++ piece⟩)
          | some (false, sI) =>
              let i2 := scanWhile isFunctionNameChar text sI.i
              some (true, markdownTrailingWs text i2 st1.out)
        else
          let i2 := scanWhile isFunctionNameChar text st1.i
          some (true, markdownTrailingWs text i2 st1.out)
      else
        let i2 := scanWhile isFunctionNameChar text st1.i
        some (true, markdownTrailingWs text i2 st1.out)
    else some (true, markdownTrailingWs text st1.i st1.out)

/-- Fuel budget of `JSONRepair`: generous for the recursion depth and loop
iterations of the inputs considered here. -/
def defaultFuel (text : Text) : Nat := text.length * 16 + 64

/-- Leading-fence phase followed by the value phase of `JSONRepair`. -/
def JSONRepairValuePhase (text : Text) (trim : Bool) : Option Res :=
  match parseMarkdownCodeBlock (defaultFuel text) text ["```", "[```", "\x7b```"]
      trim ⟨0, []⟩ with
  | none => none
  | some (_, st1) => parseValue (defaultFuel text) text trim st1

/-- Go `JSONRepair`: empty-input check, leading fence, one value, trailing
fence; the repaired text or a positioned error. -/
def JSONRepair (text : Text) (trim : Bool) : Option (Except RepairError Text) :=
  if text.length = 0 then some (.error (newUnexpectedEndError 0))
  else
    match JSONRepairValuePhase text trim with
    | none => none
    | some (.fail e _) => some (.error e)
    | some (.ok false _) => some (.error (newUnexpectedEndError text.length))
    | some (.ok true st2) =>
        match parseMarkdownCodeBlock (defaultFuel text) text
            ["```", "```]", "```\x7d"] trim st2 with
        | none => none
        | some (_, st3) => some (.ok st3.out)

/-! ## Reference strict-JSON grammar (spec side).

Modelled from the spec: the claims compare the engine's output against "a
standard strict-JSON validator" and speak of re-parsing to a structurally
equal JSON value.  The following parser implements the RFC 8259 grammar and
is independent of the engine above. -/

/-- A parsed JSON value; numbers keep their token text, strings their
decoded content. -/
inductive JValue where
  | null
  | bool (b : Bool)
  | num (token : Text)
  | str (s : Text)
  | arr (elems : List JValue)
  | obj (members : List (Text × JValue))
deriving BEq, Repr

/-- Insignificant whitespace of RFC 8259. -/
def jsonWs (c : Char) : Bool := c = ' ' || c = '\t' || c = '\n' || c = '\r'

/-- Hex digit value for `\u` escapes. -/
def hexVal (c : Char) : Nat :=
  if '0' ≤ c && c ≤ '9' then c.toNat - 48
  else if 'a' ≤ c && c ≤ 'f' then c.toNat - 87
  else if 'A' ≤ c && c ≤ 'F' then c.toNat - 55
  else 0

/-- String body of the reference grammar: characters and escapes up to the
closing quote; raw control characters are rejected. -/
def parseJStringBody : Nat → Text → Text → Option (Text × Text)
  | 0, _, _ => none
  | _ + 1, [], _ => none
  | fuel + 1, c :: rest, acc =>
      if c = '"' then some (acc, rest)
      else if c = '\\' then
        match rest with
        | [] => none
        | e :: rest2 =>
            if e = '"' || e = '\\' || e = '/' then
              parseJStringBody fuel rest2 (acc ++ [e])
            else if e = 'b' then parseJStringBody fuel rest2 (acc ++ [Char.ofNat 8])
            else if e = 'f' then parseJStringBody fuel rest2 (acc ++ [Char.ofNat 12])
            else if e = 'n' then parseJStringBody fuel rest2 (acc ++ ['\n'])
            else if e = 'r' then parseJStringBody fuel rest2 (acc ++ ['\r'])
            else if e = 't' then parseJStringBody fuel rest2 (acc ++ ['\t'])
            else if e = 'u' then
              match rest2 with
              | a :: b :: c2 :: d :: rest3 =>
                  if isHex a && isHex b && isHex c2 && isHex d then
                    let n := hexVal a * 4096 + hexVal b * 256 + hexVal c2 * 16 +
                      hexVal d
                    parseJStringBody fuel rest3 (acc ++ [Char.ofNat n])
                  else none
              | _ => none
            else none
      else if c.toNat < 0x20 then none
      else parseJStringBody fuel rest (acc ++ [c])

/-- Number token of the reference grammar:
`-?(0|[1-9][0-9]*)(\.[0-9]+)?([eE][+-]?[0-9]+)?`. -/
def parseJNumber (l : Text) : Option (Text × Text) :=
  let (signPart, l1) :=
    match l with
    | '-' :: rest => (['-'], rest)
    | _ => ([], l)
  let intPart := l1.takeWhile isDigit
  let l2 := l1.drop intPart.length
  let intOk :=
    intPart ≠ [] && (intPart.headD ' ' ≠ '0' || intPart.length = 1)
  if !intOk then none
  else
    let (fracPart, l3) :=
      match l2 with
      | '.' :: rest =>
          let ds := rest.takeWhile isDigit
          if ds = [] then (none, l2)
          else (some ('.' :: ds), rest.drop ds.length)
      | _ => (none, l2)
    match fracPart with
    | none => jNumExp (signPart ++ intPart) l2
    | some fp => jNumExp (signPart ++ intPart ++ fp) l3
where
  jNumExp (tok : Text) (l : Text) : Option (Text × Text) :=
    match l with
    | e :: rest =>
        if e = 'e' || e = 'E' then
          let (sg, rest2) :=
            match rest with
            | s :: r2 => if s = '+' || s = '-' then ([s], r2) else ([], rest)
            | [] => ([], rest)
          let ds := rest2.takeWhile isDigit
          if ds = [] then none
          else some (tok ++ e :: sg ++ ds, rest2.drop ds.length)
        else some (tok, l)
    | [] => some (tok, l)

mutual

/-- Value parser of the reference grammar (fuel-indexed). -/
def parseJValue : Nat → Text → Option (JValue × Text)
  | 0, _ => none
  | fuel + 1, l =>
      match l with
      | [] => none
      | c :: rest =>
          if c = '{' then
            let l1 := rest.dropWhile jsonWs
            match l1 with
            | '}' :: r2 => some (.obj [], r2)
            | _ => parseJMembers fuel l1 []
          else if c = '[' then
            let l1 := rest.dropWhile jsonWs
            match l1 with
            | ']' :: r2 => some (.arr [], r2)
            | _ => parseJItems fuel l1 []
          else if c = '"' then
            match parseJStringBody (rest.length + 1) rest [] with
            | some (s, r2) => some (.str s, r2)
            | none => none
          else if (l.take 4) = "true".toList then some (.bool true, l.drop 4)
          else if (l.take 5) = "false".toList then some (.bool false, l.drop 5)
          else if (l.take 4) = "null".toList then some (.null, l.drop 4)
          else
            match parseJNumber l with
            | some (tok, r2) => some (.num tok, r2)
            | none => none

/-- Object members of the reference grammar. -/
def parseJMembers : Nat → Text → List (Text × JValue) →
    Option (JValue × Text)
  | 0, _, _ => none
  | fuel + 1, l, acc =>
      match l with
      | '"' :: rest =>
          match parseJStringBody (rest.length + 1) rest [] with
          | none => none
          | some (key, r2) =>
              let r3 := r2.dropWhile jsonWs
              match r3 with
              | ':' :: r4 =>
                  match parseJValue fuel (r4.dropWhile jsonWs) with
                  | none => none
                  | some (v, r5) =>
                      let r6 := r5.dropWhile jsonWs
                      match r6 with
                      | ',' :: r7 =>
                          parseJMembers fuel (r7.dropWhile jsonWs)
                            (acc ++ [(key, v)])
                      | '}' :: r7 => some (.obj (acc ++ [(key, v)]), r7)
                      | _ => none
              | _ => none
      | _ => none

/-- Array items of the reference grammar. -/
def parseJItems : Nat → Text → List JValue → Option (JValue × Text)
  | 0, _, _ => none
  | fuel + 1, l, acc =>
      match parseJValue fuel l with
      | none => none
      | some (v, r1) =>
          let r2 := r1.dropWhile jsonWs
          match r2 with
          | ',' :: r3 => parseJItems fuel (r3.dropWhile jsonWs) (acc ++ [v])
          | ']' :: r3 => some (.arr (acc ++ [v]), r3)
          | _ => none

end

/-- Reference strict-JSON parse of a complete document. -/
def jsonParse (s : Text) : Option JValue :=
  match parseJValue (s.length + 1) (s.dropWhile jsonWs) with
  | some (v, r) => if r.dropWhile jsonWs = [] then some v else none
  | none => none

/-- Reference strict-JSON validator: the document parses completely. -/
def jsonValid (s : Text) : Bool := (jsonParse s).isSome

/-! ## Auxiliary lemmas -/

set_option maxRecDepth 100000
set_option maxHeartbeats 4000000

/-- A digit is not a delimiter. -/
theorem isDigit_isDelimiter (c : Char) (h : isDigit c = true) :
    isDelimiter c = false := by
  cases hd : isDelimiter c
  · rfl
  · simp only [isDelimiter, Bool.or_eq_true, decide_eq_true_eq] at hd
    rcases hd with
      ((((((((rfl | rfl) | rfl) | rfl) | rfl) | rfl) | rfl) | rfl) | rfl) | rfl <;>
      exact absurd h (by decide)

/-- A digit is not whitespace. -/
theorem isDigit_isWhitespace (c : Char) (h : isDigit c = true) :
    isWhitespace c = false := by
  cases hw : isWhitespace c
  · rfl
  · exfalso
    simp only [isWhitespace, Bool.or_eq_true, decide_eq_true_eq] at hw
    rcases hw with (((rfl | rfl) | rfl) | rfl) | hsp
    · exact absurd h (by decide)
    · exact absurd h (by decide)
    · exact absurd h (by decide)
    · exact absurd h (by decide)
    · simp only [isDigit, code, Bool.and_eq_true, decide_eq_true_eq] at h
      simp only [isSpecialWhitespace, code, Bool.or_eq_true, Bool.and_eq_true,
        decide_eq_true_eq] at hsp
      omega

/-- `takeWhile` keeps a list all of whose elements satisfy the predicate. -/
theorem takeWhile_eq_self_of_all {p : Char → Bool} :
    ∀ l : Text, (∀ c ∈ l, p c = true) → l.takeWhile p = l
  | [], _ => rfl
  | c :: l, h => by
      rw [List.takeWhile_cons, h c (List.mem_cons_self c l)]
      simp [takeWhile_eq_self_of_all l (fun x hx => h x (List.mem_cons_of_mem c hx))]

/-- A `take` of a list whose head differs cannot equal the other list. -/
theorem take_ne_of_head_ne (l s : Text) (n : Nat) (hn : n ≠ 0) (hl : l ≠ [])
    (hs : s ≠ [])
    (hh : l.headD (Char.ofNat 0) ≠ s.headD (Char.ofNat 0)) : l.take n ≠ s := by
  cases l with
  | nil => exact absurd rfl hl
  | cons a l2 =>
      cases s with
      | nil => exact absurd rfl hs
      | cons b s2 =>
          cases n with
          | zero => exact absurd rfl hn
          | succ m =>
              intro he
              rw [List.take_succ_cons] at he
              injection he with h1 _
              exact hh (by simpa using h1)

/-- `parseKeyword` succeeds on a prefix match. -/
theorem parseKeyword_matches (text : Text) (st : St) (name value : String)
    (h : (text.drop st.i).take name.length = name.toList) :
    parseKeyword text st name value =
      (true, ⟨st.i + name.length, st.out ++ value.toList⟩) := by
  have hlist : name.toList.length = name.length := rfl
  have hlen : name.length ≤ (text.drop st.i).length := by
    have h2 := congrArg List.length h
    simp only [List.length_take, hlist] at h2
    omega
  have hge : text.length - st.i ≥ name.length := by
    have h3 := List.length_drop st.i text
    omega
  unfold parseKeyword
  split
  · rfl
  · next hcond =>
      exfalso
      apply hcond
      rw [Bool.and_eq_true, decide_eq_true_eq, decide_eq_true_eq]
      exact ⟨hge, h⟩

/-- `parseKeyword` fails without a prefix match and leaves the state
unchanged. -/
theorem parseKeyword_no_match (text : Text) (st : St) (name value : String)
    (h : (text.drop st.i).take name.length ≠ name.toList) :
    parseKeyword text st name value = (false, st) := by
  unfold parseKeyword
  split
  · next hcond =>
      exfalso
      rw [Bool.and_eq_true, decide_eq_true_eq, decide_eq_true_eq] at hcond
      exact h hcond.2
  · rfl

/-- `parseNumber` on a leading `+` followed only by digits consumes the whole
token and emits the digits with the sign stripped. -/
theorem parseNumber_plus_digits (ds : Text) (hne : ds ≠ [])
    (hall : ∀ c ∈ ds, isDigit c = true) :
    parseNumber ('+' :: ds) ⟨0, []⟩ = (true, ⟨ds.length + 1, ds⟩) := by
  obtain ⟨c, ds', rfl⟩ : ∃ c ds', ds = c :: ds' := by
    cases ds with
    | nil => exact absurd rfl hne
    | cons a l => exact ⟨a, l, rfl⟩
  have hc : isDigit c = true := hall c (List.mem_cons_self c ds')
  have hndelim : isDelimiter c = false := isDigit_isDelimiter c hc
  have hnws : isWhitespace c = false := isDigit_isWhitespace c hc
  have hlen : ('+' :: c :: ds').length = ds'.length + 2 := by simp
  have htget1 : tget ('+' :: c :: ds') 1 = c := rfl
  have hAtEnd1 : atEndOfNumber ('+' :: c :: ds') 1 = false := by
    simp only [atEndOfNumber, htget1, hndelim, hnws, Bool.or_false, hlen]
    rw [decide_eq_false (by omega)]
  have hscan : scanWhile isDigit ('+' :: c :: ds') 1 = ds'.length + 2 := by
    unfold scanWhile
    rw [show ('+' :: c :: ds').drop 1 = c :: ds' from rfl,
      takeWhile_eq_self_of_all _ hall]
    simp
    omega
  have hAtEndL : atEndOfNumber ('+' :: c :: ds') (ds'.length + 2) = true := by
    simp only [atEndOfNumber, hlen]
    rw [decide_eq_true (by omega : ds'.length + 2 ≥ ds'.length + 2)]
    simp
  have hslice : slice ('+' :: c :: ds') 0 (ds'.length + 2) = '+' :: c :: ds' := by
    unfold slice
    rw [show ('+' :: c :: ds').drop 0 = '+' :: c :: ds' from rfl]
    rw [show ds'.length + 2 - 0 = ('+' :: c :: ds').length by simp]
    exact List.take_length _
  unfold parseNumber
  rw [if_pos (by
    rw [Bool.and_eq_true, decide_eq_true_eq]
    refine ⟨by simp, ?_⟩
    rw [show tget ('+' :: c :: ds') 0 = '+' from rfl]
    simp)]
  unfold_projs
  simp only [Nat.zero_add]
  rw [hAtEnd1]
  simp only [Bool.false_eq_true, if_false]
  rw [htget1, hc]
  simp only [Bool.not_true, Bool.false_eq_true, if_false]
  unfold parseNumberBody
  rw [hscan]
  rw [if_neg (by
    rw [Bool.and_eq_true, decide_eq_true_eq, hlen]
    intro hcontra
    omega)]
  unfold parseNumberExponent
  rw [if_neg (by
    rw [Bool.and_eq_true, decide_eq_true_eq, hlen]
    intro hcontra
    omega)]
  unfold parseNumberEnding
  rw [hAtEndL]
  simp only [Bool.not_true, Bool.false_eq_true, if_false]
  rw [if_pos (by omega : (ds'.length + 2 : Nat) > 0)]
  rw [hslice]
  rw [show hasInvalidLeadingZero ('+' :: c :: ds') = false from rfl]
  simp only [Bool.false_eq_true, if_false]
  rw [show goTrimPlusSign ('+' :: c :: ds') = c :: ds' from rfl]
  simp

/-! ## Claim theorems -/

/-- C1: the spec claims that whenever `JSONRepair` succeeds, the returned
text satisfies a standard strict-JSON validator.  Evaluating the code at the
quoted numeric string `"+5"` refutes this: for either value of
`trimWhitespace` the repair succeeds and returns the bare text `+5` (the
string parser emits ParseFloat-numeric content unquoted), which the
reference strict-JSON validator rejects, since a strict JSON number cannot
carry a leading plus sign. -/
theorem C1_success_output_invalid :
    (∀ b : Bool, JSONRepair "\"+5\"".toList b = some (.ok "+5".toList)) ∧
    jsonValid "+5".toList = false :=
  ⟨fun b => by cases b <;> rfl, rfl⟩

/-- C2 counterexample: the input `"42"` is strict-valid JSON parsing to the
string value `42`, but `JSONRepair` returns the bare number token `42`,
which re-parses to a number value — not structurally equal to the original
string value.  This refutes the claim that repair of already-valid JSON
re-parses to an equivalent value. -/
theorem C2_counterexample :
    jsonParse "\"42\"".toList = some (.str "42".toList) ∧
    JSONRepair "\"42\"".toList false = some (.ok "42".toList) ∧
    jsonParse "42".toList = some (.num "42".toList) ∧
    JValue.num "42".toList ≠ JValue.str "42".toList :=
  ⟨rfl, rfl, rfl, fun h => JValue.noConfusion h⟩

/-- C2 (amended): repair of already-valid JSON does not in general re-parse
to a structurally equal value.  Simple valid documents can be returned
verbatim (`[true,null]` is), but string-repair heuristics restructure some
valid string values: content that parses as a plain number is coerced to a
bare number (the valid string `"42"` becomes the number token `42`,
changing the value's kind), and the missing-comma heuristic that ends a
string at a quote character followed by a letter truncates valid strings
containing quote-like characters (the valid document `"a”b"` — a string
containing a curly quote — repairs to `"a"`). -/
theorem C2_idempotence_modulo_numeric_strings :
    JSONRepair "[true,null]".toList false = some (.ok "[true,null]".toList) ∧
    JSONRepair "\"42\"".toList false = some (.ok "42".toList) ∧
    jsonParse "\"42\"".toList = some (.str "42".toList) ∧
    jsonParse "42".toList = some (.num "42".toList) ∧
    jsonParse "\"a”b\"".toList = some (.str "a”b".toList) ∧
    JSONRepair "\"a”b\"".toList false = some (.ok "\"a\"".toList) :=
  ⟨rfl, rfl, rfl, rfl, rfl, rfl⟩

/-- C3: the claim (and spec) says a quoted numeric string with an invalid
leading zero, such as `"00501"`, stays quoted.  Evaluating the code refutes
this: the string parser unquotes any ParseFloat-numeric content, so quoted
`"00501"` becomes the bare (strict-invalid) token `00501`; the
leading-zero guard exists only in the number parser, where the bare token
`00501` is emitted as the quoted string `"00501"`. -/
theorem C3_leading_zero_string_not_preserved :
    JSONRepair "\"00501\"".toList false = some (.ok "00501".toList) ∧
    jsonValid "00501".toList = false ∧
    JSONRepair "00501".toList false = some (.ok "\"00501\"".toList) :=
  ⟨rfl, rfl, rfl⟩

/-- C4 counterexample: for the bare input `ObjectId(abc123)` the claim
predicts the output `"ObjectId"("abc123")`; the code instead returns
`"abc123)"` (the function-call path of the unquoted-string parser swallows
the constructor name and opening parenthesis, and the unquoted argument
scan also consumes the closing parenthesis). -/
theorem C4_counterexample :
    JSONRepair "ObjectId(abc123)".toList false =
      some (.ok "\"abc123)\"".toList) ∧
    "\"abc123)\"".toList ≠ "\"ObjectId\"(\"abc123\")".toList :=
  ⟨rfl, by decide⟩

/-- C4 (amended): the `"Name"("argument")` shape is produced only when the
extended-constructor identifier is *not* immediately followed by `(` (for
example `ObjectId abc123`); when the identifier is immediately followed by
`(`, the function-call path emits only the repaired argument, swallowing
the constructor name and parentheses (`ObjectId(abc123)` yields
`"abc123)"`). -/
theorem C4_constructor_repair_shapes :
    JSONRepair "ObjectId abc123".toList false =
      some (.ok "\"ObjectId\"(\"abc123\")".toList) ∧
    JSONRepair "ObjectId(abc123)".toList false =
      some (.ok "\"abc123)\"".toList) :=
  ⟨rfl, rfl⟩

/-- C5 counterexample: the number parser consumes the dangling token `+`
(which begins with a plus sign) and emits `+0` — the leading `+` is present
in the emitted output, refuting the claim that a consumed token beginning
with `+` never carries its plus sign into the output. -/
theorem C5_counterexample :
    parseNumber "+".toList ⟨0, []⟩ = (true, ⟨1, "+0".toList⟩) ∧
    "+0".toList.headD ' ' = '+' :=
  ⟨rfl, rfl⟩

/-- C5 (amended): a number token ending at an end-of-number boundary with a
dangling sign, dot, or exponent marker is repaired by appending `0` to the
token *verbatim*, retaining any leading `+` (`+` gives `+0`, `5.` gives
`5.0`, `3e` gives `3e0`, `3e+` gives `3e+0`); the leading `+` is stripped
only on the complete-number path (for every all-digit token: `+ds` gives
`ds`) and on the exponent-completion path (`+2ex` gives `2e+0`). -/
theorem C5_number_repairs :
    (∀ ds : Text, ds ≠ [] → (∀ c ∈ ds, isDigit c = true) →
      parseNumber ('+' :: ds) ⟨0, []⟩ = (true, ⟨ds.length + 1, ds⟩)) ∧
    parseNumber "+".toList ⟨0, []⟩ = (true, ⟨1, "+0".toList⟩) ∧
    parseNumber "5.".toList ⟨0, []⟩ = (true, ⟨2, "5.0".toList⟩) ∧
    parseNumber "3e".toList ⟨0, []⟩ = (true, ⟨2, "3e0".toList⟩) ∧
    parseNumber "3e+".toList ⟨0, []⟩ = (true, ⟨3, "3e+0".toList⟩) ∧
    parseNumber "+2ex".toList ⟨0, []⟩ = (true, ⟨3, "2e+0".toList⟩) :=
  ⟨parseNumber_plus_digits, rfl, rfl, rfl, rfl, rfl⟩

/-- C5 witness: the universal part of `C5_number_repairs` applied to the
concrete token `+7`. -/
theorem C5_number_repairs_witness :
    parseNumber ('+' :: ['7']) ⟨0, []⟩ = (true, ⟨2, ['7']⟩) :=
  C5_number_repairs.1 ['7'] (by decide) (by decide)

/-- C6 counterexample: on the input `{"http"://x` the object parser consumes
the real `{` and writes it to the output (the returned state shows the
committed brace), yet returns `(false, nil)` — the URL-scheme key guard
un-commits the already-written object start, refuting the claim that the
parser always returns `(true, nil)` after an object-start token is
committed. -/
theorem C6_counterexample :
    tget "\x7b\"http\"://x".toList 0 = '{' ∧
    parseObject 300 "\x7b\"http\"://x".toList false ⟨0, []⟩ =
      some (.ok false ⟨1, ['{']⟩) :=
  ⟨rfl, rfl⟩

/-- C6 (amended): after an object-start token is committed the object parser
may still return `(false, nil)` (a key `http`, `https` or `ftp` immediately
followed by `://` abandons the committed brace) or `(false, err)` (a fatal
error such as object-key-expected leaves the brace written and fails);
the well-formed empty object returns `(true, nil)`. -/
theorem C6_after_commit_behaviour :
    parseObject 300 "\x7b\"http\"://x".toList false ⟨0, []⟩ =
      some (.ok false ⟨1, ['{']⟩) ∧
    parseObject 300 "\x7b\x7d".toList false ⟨0, []⟩ =
      some (.ok true ⟨2, "\x7b\x7d".toList⟩) ∧
    parseObject 300 "\x7b:1\x7d".toList false ⟨0, []⟩ =
      some (.fail (newObjectKeyExpectedError 1) ⟨1, "\x7b".toList⟩) :=
  ⟨rfl, rfl, rfl⟩

/-- C7 counterexample: in `[true,,]` the two consecutive commas have no
element between them, yet the repair yields `[true]`, with no `null`
synthesized anywhere in the output — refuting the unconditional double-comma
rule of the claim. -/
theorem C7_counterexample :
    JSONRepair "[true,,]".toList false = some (.ok "[true]".toList) ∧
    goContains "[true]".toList "null".toList = false :=
  ⟨rfl, rfl⟩

/-- `[true,,true]`: a `null` is synthesized between the consecutive commas
because the next significant character is not `]`. -/
theorem arrayDoubleCommaMidFact :
    JSONRepair "[true,,true]".toList false =
      some (.ok "[true,null,true]".toList) := rfl

/-- `[true,]`: the comma immediately before the closing bracket is
removed. -/
theorem arrayTrailingCommaFact :
    JSONRepair "[true,]".toList false = some (.ok "[true]".toList) := rfl

/-- `[true,,` (unclosed): a `null` is synthesized between the consecutive
commas even though no element follows them. -/
theorem arrayDoubleCommaEndFact :
    JSONRepair "[true,,".toList false = some (.ok "[true,null]".toList) := rfl

/-- C7 (amended): the array parser removes a comma immediately before the
closing bracket (`[true,]` repairs to `[true]`); between two consecutive
commas it synthesizes a `null` unless the next significant character after
the second comma is `]`, in which case the extra comma is dropped without
synthesizing `null`: `[true,,true]` gains a middle `null`, the unclosed
`[true,,` repairs to `[true,null]` (`null` synthesized with no element
following), but `[true,,]` repairs to `[true]`. -/
theorem C7_array_comma_repairs :
    JSONRepair "[true,,true]".toList false =
      some (.ok "[true,null,true]".toList) ∧
    JSONRepair "[true,]".toList false = some (.ok "[true]".toList) ∧
    JSONRepair "[true,,".toList false = some (.ok "[true,null]".toList) :=
  ⟨arrayDoubleCommaMidFact, arrayTrailingCommaFact, arrayDoubleCommaEndFact⟩

/-- C8: for the empty input and either value of `trimWhitespace`,
`JSONRepair` returns an error whose underlying kind is `UnexpectedEnd` and
whose position is `0`. -/
theorem C8_empty_input_unexpected_end :
    ∀ b : Bool, JSONRepair "".toList b =
      some (.error ⟨"Unexpected end of json string", 0, .unexpectedEnd⟩) := by
  intro b
  cases b <;> rfl

/-- C9 counterexample: `ObjectId` alone is a parseable value (repairing to
the quoted string `"ObjectId"`), but appending the trailing characters
` abc123` changes the output to `"ObjectId"("abc123")` — the trailing
characters are consumed by the extended-constructor path and appear in the
output, refuting the claim that trailing characters after a parseable value
never appear in the output. -/
theorem C9_counterexample :
    JSONRepair "ObjectId".toList false = some (.ok "\"ObjectId\"".toList) ∧
    JSONRepair "ObjectId abc123".toList false =
      some (.ok "\"ObjectId\"(\"abc123\")".toList) ∧
    goContains "\"ObjectId\"(\"abc123\")".toList "abc123".toList = true :=
  ⟨rfl, rfl, rfl⟩

/-- C9 (amended): once the value phase (leading fence plus one top-level
value) succeeds with `true`, `JSONRepair` never returns an error, whatever
the rest of the input holds; for the input `1 2` the trailing `2` is
silently ignored and absent from the output.  (Trailing characters can
still surface in the output when the value parser itself reads past the
first value — see the counterexample.) -/
theorem C9_trailing_never_errors :
    (∀ (text : Text) (b : Bool) (st : St),
        JSONRepairValuePhase text b = some (.ok true st) →
        ∀ e : RepairError, JSONRepair text b ≠ some (.error e)) ∧
    JSONRepair "1 2".toList false = some (.ok "1 ".toList) := by
  constructor
  · intro text b st h e hcontra
    by_cases htext : text.length = 0
    · have hnil : text = [] := List.length_eq_zero.mp htext
      subst hnil
      have hph : JSONRepairValuePhase [] b = some (.ok false ⟨0, []⟩) := by
        cases b <;> rfl
      rw [hph] at h
      have h2 := Option.some.inj h
      injection h2 with hb _
      exact Bool.noConfusion hb
    · have hrew : JSONRepair text b =
          match parseMarkdownCodeBlock (defaultFuel text) text
              ["```", "```]", "```\x7d"] b st with
          | none => none
          | some (_, st3) => some (.ok st3.out) := by
        unfold JSONRepair
        rw [if_neg htext, h]
      rw [hrew] at hcontra
      cases hm : parseMarkdownCodeBlock (defaultFuel text) text
          ["```", "```]", "```\x7d"] b st with
      | none =>
          rw [hm] at hcontra
          exact Option.noConfusion hcontra
      | some p =>
          obtain ⟨_, st3⟩ := p
          rw [hm] at hcontra
          have h3 := Option.some.inj hcontra
          exact Except.noConfusion h3
  · rfl

/-- C9 witness: the universal part of `C9_trailing_never_errors` applied to
the concrete input `1 2`, whose value phase succeeds with state
`⟨2, "1 "⟩`. -/
theorem C9_trailing_never_errors_witness :
    JSONRepair "1 2".toList false ≠ some (.error (newUnexpectedEndError 0)) :=
  C9_trailing_never_errors.1 "1 2".toList false ⟨2, "1 ".toList⟩ rfl
    (newUnexpectedEndError 0)

/-- C10: the keyword parser matches by string prefix with no word-boundary
check: any prefix match consumes the keyword and emits its normalised value
regardless of what follows; each of the six keywords (`true`, `false`,
`null`, `True`, `False`, `None`) is consumed even when a letter or digit
immediately follows; inside an array the following characters are parsed as
a separate element (`[truetrue]` repairs to `[true,true]`), and at top
level the keyword alone is the resulting document (`truex` repairs to
`true`). -/
theorem C10_keyword_prefix_no_boundary :
    (∀ (text : Text) (st : St) (name value : String),
        (text.drop st.i).take name.length = name.toList →
        parseKeyword text st name value =
          (true, ⟨st.i + name.length, st.out ++ value.toList⟩)) ∧
    parseKeywords "truex".toList ⟨0, []⟩ = (true, ⟨4, "true".toList⟩) ∧
    parseKeywords "falsey".toList ⟨0, []⟩ = (true, ⟨5, "false".toList⟩) ∧
    parseKeywords "null7".toList ⟨0, []⟩ = (true, ⟨4, "null".toList⟩) ∧
    parseKeywords "Truex".toList ⟨0, []⟩ = (true, ⟨4, "true".toList⟩) ∧
    parseKeywords "Falsey".toList ⟨0, []⟩ = (true, ⟨5, "false".toList⟩) ∧
    parseKeywords "Nonex".toList ⟨0, []⟩ = (true, ⟨4, "null".toList⟩) ∧
    JSONRepair "[truetrue]".toList false = some (.ok "[true,true]".toList) ∧
    JSONRepair "truex".toList false = some (.ok "true".toList) :=
  ⟨fun text st name value h => parseKeyword_matches text st name value h,
   rfl, rfl, rfl, rfl, rfl, rfl, rfl, rfl⟩

/-- C10 witness: the universal part of `C10_keyword_prefix_no_boundary`
applied to the input `truex` at position `0` with the keyword `true`. -/
theorem C10_keyword_prefix_no_boundary_witness :
    parseKeyword "truex".toList ⟨0, []⟩ "true" "true" =
      (true, ⟨4, "true".toList⟩) :=
  C10_keyword_prefix_no_boundary.1 "truex".toList ⟨0, []⟩ "true" "true" rfl

end JsonRepair
